import Mathlib

/-!
# ttk::PersistenceDiagramDistanceMatrix

A shallow embedding of
`core/base/persistenceDiagramDistanceMatrix/PersistenceDiagramDistanceMatrix.h`:
the configuration object and its setters, the loop of `execute` that splits every
input diagram into its "min", "sad" and "max" sub-diagrams, the pair-type switch,
the hand-over to the clustering engine and the bookkeeping done after it.

Conventions of the embedding.
* `std::vector` is `List`; `v[i]` out of range makes the call fail (`none`).
* `int` values are `Int`; a conversion from `size_t` or to `unsigned int` is
  written out with its wrap-around.
* the template parameter `dataType` and the C++ types `float` / `double` are type
  parameters: the code only compares a `dataType` with `0` and copies the rest.
* a thrown exception is `none`.
-/

namespace ttk

/-! ## Data model -/

/-- Modelled from the spec: the declaration of `ttk::CriticalType` is not part of
the sources at hand. The four values are the ones the header names through
`BLocalMin`, `BSaddle1`, `BSaddle2`, `BLocalMax` (spec §3: CriticalType ∈ {LocalMin,
Saddle1, Saddle2, LocalMax}); `other` stands for any further enumerator the
declaration may have, so that no result depends on the enumeration having exactly
four values. -/
inductive CriticalType where
  | Local_minimum
  | Saddle1
  | Saddle2
  | Local_maximum
  | other (code : Nat)
  deriving DecidableEq, Repr

/-- The type `BNodeType` of the header. -/
abbrev BNodeType := CriticalType
/-- The value `BLocalMax` of the header. -/
abbrev BLocalMax : BNodeType := CriticalType.Local_maximum
/-- The value `BLocalMin` of the header. -/
abbrev BLocalMin : BNodeType := CriticalType.Local_minimum
/-- The value `BSaddle1` of the header. -/
abbrev BSaddle1 : BNodeType := CriticalType.Saddle1
/-- The value `BSaddle2` of the header. -/
abbrev BSaddle2 : BNodeType := CriticalType.Saddle2
/-- The type `ttk::SimplexId`, an integer identifier. -/
abbrev SimplexId := Int

/-- The 14-component `diagramTuple` of the header; `getK` is `std::get<K>`. -/
structure diagramTuple (dataType float : Type) where
  get0 : SimplexId
  get1 : CriticalType
  get2 : SimplexId
  get3 : CriticalType
  get4 : dataType
  get5 : SimplexId
  get6 : dataType
  get7 : float
  get8 : float
  get9 : float
  get10 : dataType
  get11 : float
  get12 : float
  get13 : float
  deriving DecidableEq, Repr

/-- The implicit conversion of a `size_t` to `int` done by `push_back(j)` on a
`std::vector<int>`: the value modulo 2^32, read as a two's complement number. -/
def size_t_to_int (j : Nat) : Int :=
  if j % 2 ^ 32 < 2 ^ 31 then ((j % 2 ^ 32 : Nat) : Int)
  else ((j % 2 ^ 32 : Nat) : Int) - 2 ^ 32

/-- The statement `v[i].push_back(x)` on a vector of vectors. The loops only use it
with `i` in range; out of range nothing is written. -/
def push_back_at {α : Type} (v : List (List α)) (i : Nat) (x : α) : List (List α) :=
  v.modify (fun w => w ++ [x]) i

/-- The local variables of `execute` written by the partitioning loop
(lines 211-223 of the header). -/
structure Partitions (dataType float : Type) where
  data_min : List (List (diagramTuple dataType float))
  data_sad : List (List (diagramTuple dataType float))
  data_max : List (List (diagramTuple dataType float))
  data_min_idx : List (List Int)
  data_sad_idx : List (List Int)
  data_max_idx : List (List Int)
  do_min : Bool
  do_sad : Bool
  do_max : Bool
  deriving DecidableEq, Repr

section partition

variable {dataType float : Type} [Zero dataType] [LT dataType]
  [DecidableRel ((fun a b => a < b) : dataType → dataType → Prop)]

/-- The declarations before the loop: `numberOfInputs_` empty vectors for each of the
six tables, the three flags `false`. -/
def Partitions.init (n : Nat) : Partitions dataType float where
  data_min := List.replicate n []
  data_sad := List.replicate n []
  data_max := List.replicate n []
  data_min_idx := List.replicate n []
  data_sad_idx := List.replicate n []
  data_max_idx := List.replicate n []
  do_min := false
  do_sad := false
  do_max := false

/-- The body of the inner loop (lines 230-260) for input `i`, position `j` and the
tuple `t = CTDiagram[j]`. -/
def partitionStep (i j : Nat) (t : diagramTuple dataType float)
    (s : Partitions dataType float) : Partitions dataType float :=
  let nt1 := t.get1
  let nt2 := t.get3
  let dt := t.get4
  if 0 < dt then
    if nt1 = BLocalMin ∧ nt2 = BLocalMax then
      { s with data_max := push_back_at s.data_max i t
               data_max_idx := push_back_at s.data_max_idx i (size_t_to_int j)
               do_max := true }
    else
      let s1 :=
        if nt1 = BLocalMax ∨ nt2 = BLocalMax then
          { s with data_max := push_back_at s.data_max i t
                   data_max_idx := push_back_at s.data_max_idx i (size_t_to_int j)
                   do_max := true }
        else s
      let s2 :=
        if nt1 = BLocalMin ∨ nt2 = BLocalMin then
          { s1 with data_min := push_back_at s1.data_min i t
                    data_min_idx := push_back_at s1.data_min_idx i (size_t_to_int j)
                    do_min := true }
        else s1
      if (nt1 = BSaddle1 ∧ nt2 = BSaddle2) ∨ (nt1 = BSaddle2 ∧ nt2 = BSaddle1) then
        { s2 with data_sad := push_back_at s2.data_sad i t
                  data_sad_idx := push_back_at s2.data_sad_idx i (size_t_to_int j)
                  do_sad := true }
      else s2
  else s

/-- The inner loop `for(size_t j = 0; j < CTDiagram.size(); ++j)`, entered at
position `j` with the tuples `CTDiagram[j], CTDiagram[j+1], ...` still to visit. -/
def innerLoop (i : Nat) :
    Nat → List (diagramTuple dataType float) → Partitions dataType float →
      Partitions dataType float
  | _, [], s => s
  | j, t :: rest, s => innerLoop i (j + 1) rest (partitionStep i j t s)

/-- The first `n` rounds `i = 0, ..., n - 1` of the outer loop
`for(int i = 0; i < numberOfInputs_; i++)`. Reading `intermediateDiagrams[i]` past the
end of the argument makes the call fail. -/
def outerLoop (intermediateDiagrams : List (List (diagramTuple dataType float))) :
    Nat → Partitions dataType float → Option (Partitions dataType float)
  | 0, s => some s
  | n + 1, s =>
    match outerLoop intermediateDiagrams n s with
    | none => none
    | some s1 =>
      match intermediateDiagrams[n]? with
      | none => none
      | some CTDiagram => some (innerLoop n 0 CTDiagram s1)

/-- Lines 211-262 of `execute`: the tables are allocated with `numberOfInputs_`
entries (a negative count cannot be allocated) and filled by the two loops. -/
def partitionDiagrams (numberOfInputs_ : Int)
    (intermediateDiagrams : List (List (diagramTuple dataType float))) :
    Option (Partitions dataType float) :=
  if numberOfInputs_ < 0 then none
  else outerLoop intermediateDiagrams numberOfInputs_.toNat
    (Partitions.init numberOfInputs_.toNat)

/-- The condition under which the loop body copies `t` into the "max" tables: either
the first branch (line 238) or the first test of the second (line 243). -/
def toMax (t : diagramTuple dataType float) : Bool :=
  decide (0 < t.get4) &&
    (decide (t.get1 = BLocalMin ∧ t.get3 = BLocalMax) ||
      decide (t.get1 = BLocalMax ∨ t.get3 = BLocalMax))

/-- The condition under which the loop body copies `t` into the "min" tables
(line 248, reached only when the test of line 238 fails). -/
def toMin (t : diagramTuple dataType float) : Bool :=
  decide (0 < t.get4) &&
    (!decide (t.get1 = BLocalMin ∧ t.get3 = BLocalMax) &&
      decide (t.get1 = BLocalMin ∨ t.get3 = BLocalMin))

/-- The condition under which the loop body copies `t` into the "sad" tables
(lines 253-254, reached only when the test of line 238 fails). -/
def toSad (t : diagramTuple dataType float) : Bool :=
  decide (0 < t.get4) &&
    (!decide (t.get1 = BLocalMin ∧ t.get3 = BLocalMax) &&
      decide ((t.get1 = BSaddle1 ∧ t.get3 = BSaddle2) ∨
        (t.get1 = BSaddle2 ∧ t.get3 = BSaddle1)))

/-- The values pushed on an index table while the inner loop runs from position `j`
over the tuples `D`: the converted position of every tuple that satisfies `p`. -/
def positions {α : Type} (p : α → Bool) : Nat → List α → List Int
  | _, [] => []
  | j, t :: rest =>
    if p t then size_t_to_int j :: positions p (j + 1) rest else positions p (j + 1) rest

/-- The tables and flags after the first `n` rounds of the outer loop, in closed
form: round `i` has filled entry `i` of every table from input `i`, the entries of the
later inputs are still empty. -/
def partitionsAfter (N n : Nat)
    (intermediateDiagrams : List (List (diagramTuple dataType float))) :
    Partitions dataType float where
  data_min := (intermediateDiagrams.take n).map (List.filter toMin) ++ List.replicate (N - n) []
  data_sad := (intermediateDiagrams.take n).map (List.filter toSad) ++ List.replicate (N - n) []
  data_max := (intermediateDiagrams.take n).map (List.filter toMax) ++ List.replicate (N - n) []
  data_min_idx :=
    (intermediateDiagrams.take n).map (positions toMin 0) ++ List.replicate (N - n) []
  data_sad_idx :=
    (intermediateDiagrams.take n).map (positions toSad 0) ++ List.replicate (N - n) []
  data_max_idx :=
    (intermediateDiagrams.take n).map (positions toMax 0) ++ List.replicate (N - n) []
  do_min := (intermediateDiagrams.take n).any (fun D => D.any toMin)
  do_sad := (intermediateDiagrams.take n).any (fun D => D.any toSad)
  do_max := (intermediateDiagrams.take n).any (fun D => D.any toMax)

end partition

/-- The relation between a raw diagram `raw`, one of its sub-diagrams `data` and the
index map `idx` of that sub-diagram: same length, strictly increasing indices, every
index below the length of the raw diagram, and entry `k` of the sub-diagram is the
entry of the raw diagram at position `idx[k]`. -/
def IsIndexMap {α : Type} (raw data : List α) (idx : List Int) : Prop :=
  idx.length = data.length ∧
  idx.Pairwise (fun a b => a < b) ∧
  (∀ v ∈ idx, v < (raw.length : Int)) ∧
  (∀ (k : Nat) (t : α), data[k]? = some t →
    ∃ v : Int, idx[k]? = some v ∧ 0 ≤ v ∧ raw[v.toNat]? = some t)

/-! ## The pair-type switch and the clustering engine -/

/-- The three flags `do_min`, `do_sad`, `do_max` of `execute`. -/
structure Dos where
  do_min : Bool
  do_sad : Bool
  do_max : Bool
  deriving DecidableEq, Repr

/-- The `switch(pairTypeClustering_)` of lines 266-286, on the three flags left by
the partitioning loop. -/
def pairTypeSwitch (pairTypeClustering_ : Int) (d : Dos) : Dos :=
  if pairTypeClustering_ = 0 then { d with do_max := false, do_sad := false }
  else if pairTypeClustering_ = 1 then { d with do_max := false, do_min := false }
  else if pairTypeClustering_ = 2 then { d with do_min := false, do_sad := false }
  else d

/-- The object `ttk::PersistenceDiagramDistanceMatrix<dataType>`: its protected
fields in the order of the header, after `debugLevel_`, which it inherits from
`Debug`. -/
structure PersistenceDiagramDistanceMatrix (double BidderDiagram GoodDiagram : Type) where
  debugLevel_ : Int
  deltaLim_ : double
  useDeltaLim_ : Bool
  distanceWritingOptions_ : Int
  pairTypeClustering_ : Int
  forceUseOfAlgorithm_ : Bool
  deterministic_ : Bool
  wasserstein_ : Int
  n_clusters_ : Int
  numberOfInputs_ : Int
  threadNumber_ : Int
  use_progressive_ : Bool
  use_accelerated_ : Bool
  use_kmeanspp_ : Bool
  alpha_ : double
  lambda_ : double
  time_limit_ : double
  points_added_ : Int
  points_deleted_ : Int
  bidder_diagrams_ : List BidderDiagram
  barycenter_goods_ : List GoodDiagram
  outputDistanceMatrix_ : Bool
  useFullDiagrams_ : Bool
  perClusterDistanceMatrix_ : Bool
  centroidsDistMat_ : List (List double)
  diagramsDistMat_ : List (List double)
  distanceToCentroid_ : List double

/-- The values `execute` gives to the setters of the engine `KMeans` (lines 294-315),
one field per setter call. -/
structure PDDistMatSettings (dataType float double : Type) where
  Wasserstein : Int
  ThreadNumber : Int
  NumberOfInputs : Int
  UseProgressive : Bool
  Accelerated : Bool
  UseKDTree : Bool
  TimeLimit : double
  GeometricalFactor : double
  Lambda : double
  Deterministic : Bool
  ForceUseOfAlgorithm : Bool
  DebugLevel : Int
  DeltaLim : double
  UseDeltaLim : Bool
  DistanceWritingOptions : Int
  KMeanspp : Bool
  K : Int
  Diagrams_min : List (List (diagramTuple dataType float))
  Diagrams_sad : List (List (diagramTuple dataType float))
  Diagrams_max : List (List (diagramTuple dataType float))
  Dos : Dos
  OutputDistanceMatrix : Bool
  UseFullDiagrams : Bool
  PerClusterDistanceMatrix : Bool

/-- What `execute` reads back from the engine after `KMeans.execute()`
(lines 316-321). -/
structure PDDistMatOutput (double : Type) where
  inv_clustering : List Int
  centroids_sizes : List (List Int)
  centroidsDistanceMatrix : List (List double)
  diagramsDistanceMatrix : List (List double)
  distanceToCentroid : List double

/-- Modelled from the spec: the class `PDDistMat` (header `PDDistMat.h`) is not part
of the sources at hand. Spec §7 (b): a cluster count with K ≤ 0 or K > N "must fail
the call rather than produce degenerate output"; for an accepted configuration the
clustering itself (§4.4) is not modelled and is the argument `clustering`, a function
of the settings. -/
def PDDistMat.execute {dataType float double : Type}
    (clustering : PDDistMatSettings dataType float double → PDDistMatOutput double)
    (KMeans : PDDistMatSettings dataType float double) : Option (PDDistMatOutput double) :=
  if KMeans.K ≤ 0 ∨ KMeans.K > KMeans.NumberOfInputs then none
  else some (clustering KMeans)

/-! ## Bookkeeping after the engine -/

/-- The initialisation `unsigned int c = inv_clustering[j]`. -/
def int_to_unsigned (v : Int) : Nat := (v % 2 ^ 32).toNat

/-- The call `v.resize(n)` of a `std::vector` whose new elements are `d`. -/
def resize {α : Type} (v : List α) (n : Nat) (d : α) : List α :=
  v.take n ++ List.replicate (n - v.length) d

/-- The body of the loop of lines 328-341 for input `j`, on the pair
`(cluster_size, idxInCluster)`. Reading `inv_clustering[j]` or `cluster_size[c]`
out of range makes the call fail. -/
def reconstructStep (inv_clustering : List Int) (j : Nat)
    (st : List Int × List Int) : Option (List Int × List Int) :=
  match inv_clustering[j]? with
  | none => none
  | some v =>
    let c := int_to_unsigned v
    let cluster_size := st.1
    let idxInCluster := st.2
    if (c + 1) % 2 ^ 32 > cluster_size.length then
      let cluster_size1 := (resize cluster_size ((c + 1) % 2 ^ 32) 0).set c 1
      some (cluster_size1, idxInCluster.set j 0)
    else
      match cluster_size[c]? with
      | none => none
      | some k => some (cluster_size.set c (k + 1), idxInCluster.set j (k + 1 - 1))

/-- The first `n` rounds `j = 0, ..., n - 1` of the loop of lines 328-341. -/
def reconstructLoop (inv_clustering : List Int) :
    Nat → List Int × List Int → Option (List Int × List Int)
  | 0, st => some st
  | n + 1, st =>
    match reconstructLoop inv_clustering n st with
    | none => none
    | some st1 => reconstructStep inv_clustering n st1

/-- What a call of `execute` leaves behind: the object (its three distance tables are
overwritten), the settings handed to the engine, the two vectors of the bookkeeping
loop, the reference argument `all_matchings` and the returned vector. -/
structure ExecuteResult (dataType float double BidderDiagram GoodDiagram matchingTuple : Type)
    where
  self : PersistenceDiagramDistanceMatrix double BidderDiagram GoodDiagram
  KMeans : PDDistMatSettings dataType float double
  partitions : Partitions dataType float
  cluster_size : List Int
  idxInCluster : List Int
  all_matchings : List (List (List matchingTuple))
  inv_clustering : List Int

section execute

variable {dataType float double BidderDiagram GoodDiagram matchingTuple : Type}
  [Zero dataType] [LT dataType]
  [DecidableRel ((fun a b => a < b) : dataType → dataType → Prop)]

/-- Lines 264-315: the engine settings built from the object, the three partitioned
tables and the flags left by the pair-type switch. -/
def engineSettings (self : PersistenceDiagramDistanceMatrix double BidderDiagram GoodDiagram)
    (p : Partitions dataType float) : PDDistMatSettings dataType float double where
  Wasserstein := self.wasserstein_
  ThreadNumber := self.threadNumber_
  NumberOfInputs := self.numberOfInputs_
  UseProgressive := self.use_progressive_
  Accelerated := self.use_accelerated_
  UseKDTree := true
  TimeLimit := self.time_limit_
  GeometricalFactor := self.alpha_
  Lambda := self.lambda_
  Deterministic := self.deterministic_
  ForceUseOfAlgorithm := self.forceUseOfAlgorithm_
  DebugLevel := self.debugLevel_
  DeltaLim := self.deltaLim_
  UseDeltaLim := self.useDeltaLim_
  DistanceWritingOptions := self.distanceWritingOptions_
  KMeanspp := self.use_kmeanspp_
  K := self.n_clusters_
  Diagrams_min := p.data_min
  Diagrams_sad := p.data_sad
  Diagrams_max := p.data_max
  Dos := pairTypeSwitch self.pairTypeClustering_ ⟨p.do_min, p.do_sad, p.do_max⟩
  OutputDistanceMatrix := self.outputDistanceMatrix_
  UseFullDiagrams := self.useFullDiagrams_
  PerClusterDistanceMatrix := self.perClusterDistanceMatrix_

/-- The settings the engine is run with, lines 211-315 of `execute`: the partitioning
loop followed by the pair-type switch and the setter calls. -/
def executeSettings (self : PersistenceDiagramDistanceMatrix double BidderDiagram GoodDiagram)
    (intermediateDiagrams : List (List (diagramTuple dataType float))) :
    Option (PDDistMatSettings dataType float double) :=
  match partitionDiagrams self.numberOfInputs_ intermediateDiagrams with
  | none => none
  | some p => some (engineSettings self p)

/-- The method `execute`. `KMeans_execute` is the engine: the call `KMeans.execute()`
with the getters read after it, as a function of the settings, `none` when it fails;
`all_matchings` is the reference argument as the caller passes it; the reference
argument `final_centroids` is never used. -/
def execute (self : PersistenceDiagramDistanceMatrix double BidderDiagram GoodDiagram)
    (KMeans_execute : PDDistMatSettings dataType float double →
      Option (PDDistMatOutput double))
    (intermediateDiagrams : List (List (diagramTuple dataType float)))
    (all_matchings : List (List (List matchingTuple))) :
    Option (ExecuteResult dataType float double BidderDiagram GoodDiagram matchingTuple) :=
  match partitionDiagrams self.numberOfInputs_ intermediateDiagrams with
  | none => none
  | some p =>
    let KMeans := engineSettings self p
    match KMeans_execute KMeans with
    | none => none
    | some out =>
      let inv_clustering := out.inv_clustering
      let self1 := { self with centroidsDistMat_ := out.centroidsDistanceMatrix
                               diagramsDistMat_ := out.diagramsDistanceMatrix
                               distanceToCentroid_ := out.distanceToCentroid }
      match reconstructLoop inv_clustering self.numberOfInputs_.toNat
          ([], List.replicate self.numberOfInputs_.toNat 0) with
      | none => none
      | some (cluster_size, idxInCluster) =>
        if self.n_clusters_ < 0 then none
        else
          let all_matchings1 := resize all_matchings self.n_clusters_.toNat []
          let all_matchings2 :=
            all_matchings1.map (fun m => resize m self.numberOfInputs_.toNat [])
          some { self := self1, KMeans := KMeans, partitions := p,
                 cluster_size := cluster_size, idxInCluster := idxInCluster,
                 all_matchings := all_matchings2, inv_clustering := inv_clustering }

end execute

/-! ## The setter of the Wasserstein order -/

/-- The C function `isspace` in the default locale. -/
def isspace (c : Char) : Bool :=
  c = ' ' || c = '\t' || c = '\n' || c = '\x0b' || c = '\x0c' || c = '\r'

/-- The library function `std::stoi(str)` (base 10): leading white space is skipped,
an optional sign is read, then the longest run of decimal digits; no digit at all is
`std::invalid_argument`, a value outside `int` is `std::out_of_range`, both `none`. -/
def stoi (str : List Char) : Option Int :=
  let s := str.dropWhile isspace
  let negative : Bool := s.head? = some '-'
  let s1 := if s.head? = some '-' ∨ s.head? = some '+' then s.tail else s
  let digits := s1.takeWhile Char.isDigit
  if digits = [] then none
  else
    let v : Nat := digits.foldl (fun acc c => 10 * acc + (c.toNat - 48)) 0
    let r : Int := if negative then -(v : Int) else (v : Int)
    if -2 ^ 31 ≤ r ∧ r < 2 ^ 31 then some r else none

/-- The method `setWasserstein` (lines 82-84). -/
def setWasserstein {double BidderDiagram GoodDiagram : Type}
    (self : PersistenceDiagramDistanceMatrix double BidderDiagram GoodDiagram)
    (wasserstein : String) :
    Option (PersistenceDiagramDistanceMatrix double BidderDiagram GoodDiagram) :=
  if wasserstein = "inf" then some { self with wasserstein_ := -1 }
  else
    match stoi wasserstein.data with
    | none => none
    | some n => some { self with wasserstein_ := n }

/-- The method `setNumberOfClusters` (lines 113-115). -/
def setNumberOfClusters {double BidderDiagram GoodDiagram : Type}
    (self : PersistenceDiagramDistanceMatrix double BidderDiagram GoodDiagram)
    (NumberOfClusters : Int) :
    PersistenceDiagramDistanceMatrix double BidderDiagram GoodDiagram :=
  { self with n_clusters_ := NumberOfClusters }

/-- The method `setNumberOfInputs` (lines 71-80). -/
def setNumberOfInputs {double BidderDiagram GoodDiagram : Type}
    (self : PersistenceDiagramDistanceMatrix double BidderDiagram GoodDiagram)
    (numberOfInputs : Int) :
    PersistenceDiagramDistanceMatrix double BidderDiagram GoodDiagram :=
  { self with numberOfInputs_ := numberOfInputs }

/-- The method `setPairTypeClustering` (lines 122-124). -/
def setPairTypeClustering {double BidderDiagram GoodDiagram : Type}
    (self : PersistenceDiagramDistanceMatrix double BidderDiagram GoodDiagram)
    (pairTypeClustering : Int) :
    PersistenceDiagramDistanceMatrix double BidderDiagram GoodDiagram :=
  { self with pairTypeClustering_ := pairTypeClustering }

/-- The decimal representation of an integer: a minus sign for a negative number,
then the digits of the absolute value, most significant first, no leading zero
(the string `toString` prints, see `decimal_eq_toString`). -/
def decimal (n : Int) : String :=
  if n < 0 then ⟨'-' :: Nat.toDigits 10 n.natAbs⟩ else ⟨Nat.toDigits 10 n.natAbs⟩

/-- The ten decimal digits. -/
def decimalDigits : List Char := ['0', '1', '2', '3', '4', '5', '6', '7', '8', '9']

/-- The value `std::stoi` accumulates over a run of digits. -/
def digitsValue (l : List Char) : Nat :=
  l.foldl (fun acc c => 10 * acc + (c.toNat - 48)) 0

/-! ## Counting the copies of one pair -/

section copies

variable {dataType float : Type} [Zero dataType] [LT dataType]
  [DecidableRel ((fun a b => a < b) : dataType → dataType → Prop)]

/-- By how many entries the vector `v[i]` of the table `v` is shorter than the vector
`w[i]` of the table `w`. -/
def grownBy {α : Type} (v w : List (List α)) (i : Nat) : Nat :=
  (w[i]?.getD []).length - (v[i]?.getD []).length

/-- How many of the three sub-diagrams "min", "sad", "max" of input `i` have gained an
entry when the loop body has handled the tuple `t` at position `j` in the state `s`. -/
def copiesMade (i j : Nat) (t : diagramTuple dataType float)
    (s : Partitions dataType float) : Nat :=
  grownBy s.data_min (partitionStep i j t s).data_min i +
    grownBy s.data_sad (partitionStep i j t s).data_sad i +
    grownBy s.data_max (partitionStep i j t s).data_max i

/-- Whether `t` is a pair of positive persistence whose critical types are `a`
(first) and `b` (second). -/
def isPair (a b : CriticalType) (t : diagramTuple dataType float) : Bool :=
  decide (0 < t.get4) && decide (t.get1 = a ∧ t.get3 = b)

/-- Whether `t` is a pair of positive persistence whose critical types are LocalMin and
LocalMax in either order. -/
def isGlobalPair (t : diagramTuple dataType float) : Bool :=
  isPair BLocalMin BLocalMax t || isPair BLocalMax BLocalMin t

/-- Whether `t` is a pair of positive persistence that is not a LocalMin-LocalMax pair
in either order. -/
def isOtherPair (t : diagramTuple dataType float) : Bool :=
  decide (0 < t.get4) && !decide (t.get1 = BLocalMin ∧ t.get3 = BLocalMax) &&
    !decide (t.get1 = BLocalMax ∧ t.get3 = BLocalMin)

/-- Whether one of the two critical types of `t` is `a`. -/
def hasType (a : CriticalType) (t : diagramTuple dataType float) : Bool :=
  decide (t.get1 = a ∨ t.get3 = a)

/-- Whether the critical types of `t` are Saddle1 and Saddle2 in either order. -/
def isSaddleSaddle (t : diagramTuple dataType float) : Bool :=
  decide ((t.get1 = BSaddle1 ∧ t.get3 = BSaddle2) ∨ (t.get1 = BSaddle2 ∧ t.get3 = BSaddle1))

end copies

/-! ## The bookkeeping loop in closed form -/

/-- One more than the largest value of a list of cluster ids, 0 for the empty list. -/
def sizeBound (l : List Int) : Nat :=
  l.foldr (fun v m => max (v.toNat + 1) m) 0

/-- The vector `cluster_size` after the first `n` rounds of the bookkeeping loop, in
closed form: one entry per id below the bound of the ids read so far, holding the
number of inputs read so far that carry this id. -/
def clusterSizesAfter (inv_clustering : List Int) (n : Nat) : List Int :=
  (List.range (sizeBound (inv_clustering.take n))).map
    (fun c : Nat => (((inv_clustering.take n).count (c : Int) : Nat) : Int))

/-- The vector `idxInCluster` after the first `n` rounds of the bookkeeping loop, in
closed form: for an input `j` already handled the number of earlier inputs with the id
of `j`, and 0 for the others. -/
def idxInClusterAfter (inv_clustering : List Int) (N n : Nat) : List Int :=
  (List.range N).map
    (fun j => if j < n then
      (((inv_clustering.take j).count (inv_clustering[j]?.getD 0) : Nat) : Int) else 0)

/-! ## Test data -/

/-- A tuple with the given critical types and persistence, every other component 0. -/
def mkPair (nt1 nt2 : CriticalType) (dt : Int) : diagramTuple Int Int :=
  ⟨0, nt1, 1, nt2, dt, 0, 0, 0, 0, 0, 0, 0, 0, 0⟩

/-- The object the constructor builds (lines 55-62), the fields it leaves
unset taken as 0, false or empty, with the given counts and selector. -/
def mkObject (numberOfInputs n_clusters pairTypeClustering : Int) :
    PersistenceDiagramDistanceMatrix Int Unit Unit where
  debugLevel_ := 0
  deltaLim_ := 0
  useDeltaLim_ := false
  distanceWritingOptions_ := 0
  pairTypeClustering_ := pairTypeClustering
  forceUseOfAlgorithm_ := false
  deterministic_ := false
  wasserstein_ := 2
  n_clusters_ := n_clusters
  numberOfInputs_ := numberOfInputs
  threadNumber_ := 1
  use_progressive_ := true
  use_accelerated_ := false
  use_kmeanspp_ := false
  alpha_ := 0
  lambda_ := 0
  time_limit_ := 0
  points_added_ := 0
  points_deleted_ := 0
  bidder_diagrams_ := []
  barycenter_goods_ := []
  outputDistanceMatrix_ := false
  useFullDiagrams_ := false
  perClusterDistanceMatrix_ := false
  centroidsDistMat_ := []
  diagramsDistMat_ := []
  distanceToCentroid_ := []

/-- An engine result that puts every one of `n` inputs in cluster 0. -/
def oneCluster (n : Nat) : PDDistMatOutput Int where
  inv_clustering := List.replicate n 0
  centroids_sizes := []
  centroidsDistanceMatrix := []
  diagramsDistanceMatrix := []
  distanceToCentroid := []

/-! ## The partitioning loop in closed form -/

section partition_lemmas

variable {dataType float : Type} [Zero dataType] [LT dataType]
  [DecidableRel ((fun a b => a < b) : dataType → dataType → Prop)]

theorem modify_fun_self {α : Type} (l : List α) (i : Nat) :
    l.modify (fun w => w) i = l := List.modify_id i l

theorem modify_append_append {α : Type} (l : List (List α)) (i : Nat) (e F : List α) :
    (l.modify (fun w => w ++ e) i).modify (fun w => w ++ F) i
      = l.modify (fun w => w ++ (e ++ F)) i := by
  rw [List.modify_modify_eq]
  congr 1
  funext w
  simp

theorem push_back_at_eq {α : Type} (l : List (List α)) (i : Nat) (x : α) :
    push_back_at l i x = l.modify (fun w => w ++ [x]) i := rfl

/-- The loop body as one update per table. -/
theorem partitionStep_eq (i j : Nat) (t : diagramTuple dataType float)
    (s : Partitions dataType float) :
    partitionStep i j t s =
      { data_min := s.data_min.modify (fun w => w ++ (if toMin t then [t] else [])) i
        data_sad := s.data_sad.modify (fun w => w ++ (if toSad t then [t] else [])) i
        data_max := s.data_max.modify (fun w => w ++ (if toMax t then [t] else [])) i
        data_min_idx :=
          s.data_min_idx.modify (fun w => w ++ (if toMin t then [size_t_to_int j] else [])) i
        data_sad_idx :=
          s.data_sad_idx.modify (fun w => w ++ (if toSad t then [size_t_to_int j] else [])) i
        data_max_idx :=
          s.data_max_idx.modify (fun w => w ++ (if toMax t then [size_t_to_int j] else [])) i
        do_min := s.do_min || toMin t
        do_sad := s.do_sad || toSad t
        do_max := s.do_max || toMax t } := by
  obtain ⟨a0, nt1, a2, nt2, dt, a5, a6, a7, a8, a9, a10, a11, a12, a13⟩ := t
  by_cases hpos : 0 < dt
  · cases nt1 <;> cases nt2 <;>
      simp [partitionStep, toMin, toSad, toMax, hpos, push_back_at_eq, modify_fun_self]
  · simp [partitionStep, toMin, toSad, toMax, hpos, modify_fun_self]

/-- The inner loop as one update per table. -/
theorem innerLoop_eq (i : Nat) (D : List (diagramTuple dataType float)) :
    ∀ (j : Nat) (s : Partitions dataType float),
    innerLoop i j D s =
      { data_min := s.data_min.modify (fun w => w ++ D.filter toMin) i
        data_sad := s.data_sad.modify (fun w => w ++ D.filter toSad) i
        data_max := s.data_max.modify (fun w => w ++ D.filter toMax) i
        data_min_idx := s.data_min_idx.modify (fun w => w ++ positions toMin j D) i
        data_sad_idx := s.data_sad_idx.modify (fun w => w ++ positions toSad j D) i
        data_max_idx := s.data_max_idx.modify (fun w => w ++ positions toMax j D) i
        do_min := s.do_min || D.any toMin
        do_sad := s.do_sad || D.any toSad
        do_max := s.do_max || D.any toMax } := by
  induction D with
  | nil =>
    intro j s
    simp [innerLoop, positions, modify_fun_self]
  | cons t rest ih =>
    intro j s
    rw [innerLoop, ih, partitionStep_eq]
    simp only [modify_append_append, List.filter_cons, positions, List.any_cons,
      Bool.or_assoc]
    cases toMin t <;> cases toSad t <;> cases toMax t <;> simp

theorem modify_append_cons_length {α : Type} (f : α → α) (A : List α) (b : α)
    (R : List α) : (A ++ b :: R).modify f A.length = A ++ f b :: R := by
  induction A with
  | nil => simp
  | cons a A ih => simp [ih]

/-- One round of the outer loop on a table in closed form. -/
theorem modify_take_map {α β : Type} (g : List α → List β) (D : List (List α)) (N n : Nat)
    (d : List α) (hd : D[n]? = some d) (hn : n < N) :
    ((D.take n).map g ++ List.replicate (N - n) []).modify (fun w => w ++ g d) n
      = (D.take (n + 1)).map g ++ List.replicate (N - (n + 1)) [] := by
  have hlt : n < D.length := by
    rcases List.getElem?_eq_some_iff.mp hd with ⟨h, _⟩
    exact h
  have hlen : ((D.take n).map g).length = n := by
    simp [List.length_take, Nat.min_eq_left (Nat.le_of_lt hlt)]
  have hN : N - n = (N - (n + 1)) + 1 := by omega
  have key := modify_append_cons_length (fun w => w ++ g d) ((D.take n).map g) []
    (List.replicate (N - (n + 1)) [])
  rw [hlen] at key
  rw [hN, List.replicate_succ, key, List.take_succ, hd]
  simp

/-- The outer loop in closed form, as long as the inputs it reads exist. -/
theorem outerLoop_eq (intermediateDiagrams : List (List (diagramTuple dataType float)))
    (N : Nat) : ∀ n : Nat, n ≤ N → n ≤ intermediateDiagrams.length →
    outerLoop intermediateDiagrams n (Partitions.init N)
      = some (partitionsAfter N n intermediateDiagrams) := by
  intro n
  induction n with
  | zero =>
    intro _ _
    simp [outerLoop, partitionsAfter, Partitions.init]
  | succ n ih =>
    intro hN hlen
    have hd : intermediateDiagrams[n]? = some intermediateDiagrams[n] :=
      List.getElem?_eq_getElem hlen
    rw [outerLoop, ih (by omega) (by omega), hd]
    simp only [innerLoop_eq, partitionsAfter]
    rw [modify_take_map (List.filter toMin) _ N n _ hd hN,
      modify_take_map (List.filter toSad) _ N n _ hd hN,
      modify_take_map (List.filter toMax) _ N n _ hd hN,
      modify_take_map (positions toMin 0) _ N n _ hd hN,
      modify_take_map (positions toSad 0) _ N n _ hd hN,
      modify_take_map (positions toMax 0) _ N n _ hd hN]
    have hany : ∀ q : List (diagramTuple dataType float) → Bool,
        (intermediateDiagrams.take (n + 1)).any q
          = ((intermediateDiagrams.take n).any q || q intermediateDiagrams[n]) := by
      intro q
      rw [List.take_succ, hd, List.any_append]
      simp
    rw [hany, hany, hany]

/-- The outer loop fails as soon as it has to read an input that does not exist. -/
theorem outerLoop_none (intermediateDiagrams : List (List (diagramTuple dataType float)))
    (s : Partitions dataType float) : ∀ n : Nat, intermediateDiagrams.length < n →
    outerLoop intermediateDiagrams n s = none := by
  intro n
  induction n with
  | zero => intro h; omega
  | succ n ih =>
    intro h
    rw [outerLoop]
    cases hq : outerLoop intermediateDiagrams n s with
    | none => rfl
    | some s1 =>
      have hn : intermediateDiagrams[n]? = none := by
        apply List.getElem?_eq_none
        by_contra hc
        rw [ih (by omega)] at hq
        cases hq
      simp [hn]

/-- The partitioning loop returns exactly when the input count is not negative and
every input it names is there, and then with the closed form. -/
theorem partitionDiagrams_eq_some_iff (numberOfInputs_ : Int)
    (intermediateDiagrams : List (List (diagramTuple dataType float)))
    (p : Partitions dataType float) :
    partitionDiagrams numberOfInputs_ intermediateDiagrams = some p ↔
      0 ≤ numberOfInputs_ ∧ numberOfInputs_.toNat ≤ intermediateDiagrams.length ∧
        p = partitionsAfter numberOfInputs_.toNat numberOfInputs_.toNat
          intermediateDiagrams := by
  unfold partitionDiagrams
  by_cases hneg : numberOfInputs_ < 0
  · simp only [hneg, if_true]
    constructor
    · intro h; cases h
    · rintro ⟨h, _⟩; omega
  · simp only [hneg, if_false]
    by_cases hlen : numberOfInputs_.toNat ≤ intermediateDiagrams.length
    · rw [outerLoop_eq _ _ _ (Nat.le_refl _) hlen]
      constructor
      · intro h
        injection h with h
        exact ⟨by omega, hlen, h.symm⟩
      · rintro ⟨_, _, h⟩
        rw [h]
    · rw [outerLoop_none _ _ _ (by omega)]
      constructor
      · intro h; cases h
      · rintro ⟨_, h, _⟩; exact absurd h hlen

end partition_lemmas

/-! ## Classification of one pair (lines 237-260) -/

section classification

variable {dataType float : Type} [Zero dataType] [LT dataType]
  [DecidableRel ((fun a b => a < b) : dataType → dataType → Prop)]

theorem getElem?_push_back_at {α : Type} (v : List (List α)) (i k : Nat) (x : α) :
    (push_back_at v i x)[k]? = if k = i then (v[k]?).map (fun w => w ++ [x]) else v[k]? := by
  unfold push_back_at
  rw [List.getElem?_modify]
  by_cases h : i = k
  · subst h
    cases v[i]? <;> simp
  · have h1 : ¬ k = i := fun e => h e.symm
    cases v[k]? <;> simp [h, h1]

/-- A pair of types (LocalMin, LocalMax), in this order, with positive persistence is
pushed on the "max" tables of its input and on nothing else (the branch of line 238). -/
theorem partitionStep_min_max (i j : Nat) (t : diagramTuple dataType float)
    (s : Partitions dataType float) (hpos : 0 < t.get4)
    (h1 : t.get1 = BLocalMin) (h2 : t.get3 = BLocalMax) :
    partitionStep i j t s =
      { s with data_max := push_back_at s.data_max i t
               data_max_idx := push_back_at s.data_max_idx i (size_t_to_int j)
               do_max := true } := by
  simp [partitionStep, hpos, h1, h2]

/-- The loop body on a pair of positive persistence whose first critical type is
LocalMin and whose second is LocalMax, for input `i` at position `j`: the pair is
appended once to entry `i` of the "max" table, and the "min" and "sad" tables are left
as they are. -/
theorem partitionStep_global_pair (i j : Nat) (t : diagramTuple dataType float)
    (s : Partitions dataType float) (hpos : 0 < t.get4)
    (h1 : t.get1 = BLocalMin) (h2 : t.get3 = BLocalMax) :
    (∀ k, (partitionStep i j t s).data_max[k]? =
      if k = i then (s.data_max[k]?).map (fun w => w ++ [t]) else s.data_max[k]?) ∧
    (partitionStep i j t s).data_min = s.data_min ∧
    (partitionStep i j t s).data_sad = s.data_sad := by
  rw [partitionStep_min_max i j t s hpos h1 h2]
  exact ⟨fun k => getElem?_push_back_at s.data_max i k t, rfl, rfl⟩

/-- C1 fails on the code at the reversed global pair: for one input whose only
pair has the types (LocalMax, LocalMin) and persistence 5, the partitioning loop of
`execute` puts the pair both in the "max" and in the "min" sub-diagram of that input
(only the order (LocalMin, LocalMax) takes the branch of line 238). -/
theorem C1_reversed_global_pair_in_min_and_max :
    partitionDiagrams 1 [[mkPair BLocalMax BLocalMin 5]]
      = some { data_min := [[mkPair BLocalMax BLocalMin 5]]
               data_sad := [[]]
               data_max := [[mkPair BLocalMax BLocalMin 5]]
               data_min_idx := [[0]]
               data_sad_idx := [[]]
               data_max_idx := [[0]]
               do_min := true
               do_sad := false
               do_max := true } := by
  decide

/-- C2: a pair whose persistence is not strictly positive leaves the state of the
partitioning loop as it is, whatever its critical types, its input and its position:
nothing is pushed on any of the three sub-diagrams or of the three index maps. Hence,
whenever the input count is not negative and every input is there, the loop returns
and every entry of every sub-diagram it has built has persistence > 0. -/
theorem C2_nonpositive_pair_skipped :
    (∀ (i j : Nat) (t : diagramTuple dataType float) (s : Partitions dataType float),
        ¬ 0 < t.get4 → partitionStep i j t s = s) ∧
    (∀ (numberOfInputs_ : Int)
        (intermediateDiagrams : List (List (diagramTuple dataType float))),
        0 ≤ numberOfInputs_ → numberOfInputs_.toNat ≤ intermediateDiagrams.length →
        ∃ p, partitionDiagrams numberOfInputs_ intermediateDiagrams = some p ∧
          (∀ D ∈ p.data_min, ∀ t ∈ D, 0 < t.get4) ∧
          (∀ D ∈ p.data_sad, ∀ t ∈ D, 0 < t.get4) ∧
          (∀ D ∈ p.data_max, ∀ t ∈ D, 0 < t.get4)) := by
  constructor
  · intro i j t s hpos
    simp [partitionStep, hpos]
  · intro N diagrams h0 hlen
    refine ⟨_, (partitionDiagrams_eq_some_iff N diagrams _).mpr ⟨h0, hlen, rfl⟩, ?_, ?_, ?_⟩
    all_goals
      intro D hD t ht
      simp only [partitionsAfter, Nat.sub_self, List.replicate_zero, List.append_nil,
        List.mem_map] at hD
      obtain ⟨D0, _, rfl⟩ := hD
      have hq := (List.mem_filter.mp ht).2
      simp only [toMin, toSad, toMax, Bool.and_eq_true, decide_eq_true_eq] at hq
      exact hq.1

/-- C2 at a concrete input: a (Saddle2, LocalMax) pair of persistence 0 and one of
persistence -3 are skipped, and the one pair that is kept has persistence 5. -/
theorem C2_nonpositive_pair_skipped_witness :
    partitionStep 0 0 (mkPair BSaddle2 BLocalMax 0) (Partitions.init 1)
        = Partitions.init 1 ∧
    ∃ p, partitionDiagrams 1
        [[mkPair BSaddle2 BLocalMax (-3), mkPair BSaddle2 BLocalMax 5]] = some p ∧
      (∀ D ∈ p.data_min, ∀ t ∈ D, 0 < t.get4) ∧
      (∀ D ∈ p.data_sad, ∀ t ∈ D, 0 < t.get4) ∧
      (∀ D ∈ p.data_max, ∀ t ∈ D, 0 < t.get4) :=
  ⟨C2_nonpositive_pair_skipped.1 0 0 (mkPair BSaddle2 BLocalMax 0) (Partitions.init 1)
      (by decide),
    C2_nonpositive_pair_skipped.2 1
      [[mkPair BSaddle2 BLocalMax (-3), mkPair BSaddle2 BLocalMax 5]]
      (by decide) (by decide)⟩

/-- The loop body on other pairs: let `t` be a pair of positive persistence whose types are not LocalMin and
LocalMax (in either order), handled for input `i` at position `j`. Then entry `i` of the
"max" table gets `t` appended once if one of the two types is LocalMax and the table is
left alone otherwise; the same for "min" with LocalMin, and for "sad" with the types
Saddle1 and Saddle2 in either order. -/
theorem partitionStep_other_pairs (i j : Nat) (t : diagramTuple dataType float)
    (s : Partitions dataType float) (hpos : 0 < t.get4)
    (h12 : ¬ (t.get1 = BLocalMin ∧ t.get3 = BLocalMax))
    (h21 : ¬ (t.get1 = BLocalMax ∧ t.get3 = BLocalMin)) :
    (∀ k, (partitionStep i j t s).data_max[k]? =
      if k = i ∧ (t.get1 = BLocalMax ∨ t.get3 = BLocalMax)
      then (s.data_max[k]?).map (fun w => w ++ [t]) else s.data_max[k]?) ∧
    (∀ k, (partitionStep i j t s).data_min[k]? =
      if k = i ∧ (t.get1 = BLocalMin ∨ t.get3 = BLocalMin)
      then (s.data_min[k]?).map (fun w => w ++ [t]) else s.data_min[k]?) ∧
    (∀ k, (partitionStep i j t s).data_sad[k]? =
      if k = i ∧ ((t.get1 = BSaddle1 ∧ t.get3 = BSaddle2) ∨
        (t.get1 = BSaddle2 ∧ t.get3 = BSaddle1))
      then (s.data_sad[k]?).map (fun w => w ++ [t]) else s.data_sad[k]?) := by
  obtain ⟨a0, nt1, a2, nt2, dt, a5, a6, a7, a8, a9, a10, a11, a12, a13⟩ := t
  simp only at hpos h12 h21
  refine ⟨?_, ?_, ?_⟩ <;> intro k <;> by_cases hk : k = i <;>
    cases nt1 <;> cases nt2 <;>
    simp_all [partitionStep, getElem?_push_back_at]

end classification

/-! ## Index maps -/

section index_maps

variable {dataType float : Type} [Zero dataType] [LT dataType]
  [DecidableRel ((fun a b => a < b) : dataType → dataType → Prop)]

theorem size_t_to_int_of_lt (j : Nat) (h : j < 2 ^ 31) : size_t_to_int j = (j : Int) := by
  unfold size_t_to_int
  have h1 : j % 2 ^ 32 = j := Nat.mod_eq_of_lt (by omega)
  rw [h1, if_pos h]

/-- As long as every position fits an `int`, the values pushed on an index table are
the positions of the tuples kept, in increasing order. -/
theorem positions_spec {α : Type} (p : α → Bool) :
    ∀ (D : List α) (j : Nat), j + D.length ≤ 2 ^ 31 →
      (positions p j D).length = (D.filter p).length ∧
      (positions p j D).Pairwise (fun a b => a < b) ∧
      (∀ v ∈ positions p j D, (j : Int) ≤ v ∧ v < (j : Int) + D.length) ∧
      (∀ (k : Nat) (t : α), (D.filter p)[k]? = some t →
        ∃ v : Int, (positions p j D)[k]? = some v ∧ (j : Int) ≤ v ∧
          D[(v - j).toNat]? = some t) := by
  intro D
  induction D with
  | nil =>
    intro j _
    simp [positions]
  | cons a rest ih =>
    intro j hj
    have hlen : j + 1 + rest.length ≤ 2 ^ 31 := by
      simp only [List.length_cons] at hj
      omega
    obtain ⟨ih1, ih2, ih3, ih4⟩ := ih (j + 1) hlen
    have hcast : size_t_to_int j = (j : Int) :=
      size_t_to_int_of_lt j (by simp only [List.length_cons] at hj; omega)
    by_cases hp : p a = true
    · simp only [positions, hp, if_true, List.filter_cons_of_pos, List.length_cons, hcast]
      refine ⟨by rw [ih1], ?_, ?_, ?_⟩
      · rw [List.pairwise_cons]
        refine ⟨?_, ih2⟩
        intro v hv
        have := (ih3 v hv).1
        push_cast at this
        omega
      · intro v hv
        rcases List.mem_cons.mp hv with h | h
        · subst h
          push_cast
          omega
        · have := ih3 v h
          push_cast at this ⊢
          omega
      · intro k t hk
        cases k with
        | zero =>
          simp only [List.getElem?_cons_zero, Option.some.injEq] at hk
          subst hk
          exact ⟨j, by simp, le_refl _, by simp⟩
        | succ k =>
          simp only [List.getElem?_cons_succ] at hk
          obtain ⟨v, hv1, hv2, hv3⟩ := ih4 k t hk
          refine ⟨v, by simpa using hv1, by push_cast at hv2; omega, ?_⟩
          have hidx : (v - (j : Int)).toNat = (v - ((j + 1 : Nat) : Int)).toNat + 1 := by
            push_cast at hv2 ⊢
            omega
          rw [hidx, List.getElem?_cons_succ]
          exact hv3
    · have hp1 : p a = false := by simpa using hp
      simp only [positions, hp1, List.length_cons, Bool.false_eq_true, if_false]
      rw [List.filter_cons_of_neg (by simp [hp1])]
      refine ⟨ih1, ih2, ?_, ?_⟩
      · intro v hv
        have := ih3 v hv
        push_cast at this ⊢
        omega
      · intro k t hk
        obtain ⟨v, hv1, hv2, hv3⟩ := ih4 k t hk
        refine ⟨v, hv1, by push_cast at hv2; omega, ?_⟩
        have hidx : (v - (j : Int)).toNat = (v - ((j + 1 : Nat) : Int)).toNat + 1 := by
          push_cast at hv2 ⊢
          omega
        rw [hidx, List.getElem?_cons_succ]
        exact hv3

/-- The index table of a diagram that fits an `int` is an index map of the
sub-diagram built next to it. -/
theorem isIndexMap_positions {α : Type} (p : α → Bool) (D : List α)
    (hD : D.length ≤ 2 ^ 31) : IsIndexMap D (D.filter p) (positions p 0 D) := by
  obtain ⟨h1, h2, h3, h4⟩ := positions_spec p D 0 (by omega)
  refine ⟨h1, h2, ?_, ?_⟩
  · intro v hv
    have := (h3 v hv).2
    simpa using this
  · intro k t hk
    obtain ⟨v, hv1, hv2, hv3⟩ := h4 k t hk
    exact ⟨v, hv1, by simpa using hv2, by simpa using hv3⟩

theorem positions_replicate {α : Type} (p : α → Bool) (t : α) (hp : p t = true) :
    ∀ (n j : Nat), positions p j (List.replicate n t)
      = (List.range' j n).map size_t_to_int := by
  intro n
  induction n with
  | zero => intro j; rfl
  | succ n ih =>
    intro j
    rw [List.replicate_succ, positions, if_pos hp, ih (j + 1), List.range'_succ,
      List.map_cons]

/-- Once a diagram has more than 2^31 tuples that are all kept, the index table is no
longer increasing: position 2^31 is stored as -2^31. -/
theorem positions_not_increasing {α : Type} (p : α → Bool) (t : α) (hp : p t = true)
    (n : Nat) (hn : 2 ^ 31 < n) :
    ¬ (positions p 0 (List.replicate n t)).Pairwise (fun a b => a < b) := by
  intro h
  rw [positions_replicate p t hp, List.pairwise_iff_getElem] at h
  have hlen : ((List.range' 0 n).map size_t_to_int).length = n := by simp
  have h1 := h (2 ^ 31 - 1) (2 ^ 31) (by rw [hlen]; omega) (by rw [hlen]; omega)
    (by norm_num)
  rw [List.getElem_map, List.getElem_map, List.getElem_range', List.getElem_range'] at h1
  revert h1
  norm_num [size_t_to_int]

/-- The tables of the partitioning loop, entry by entry. -/
theorem partitionsAfter_getElem? (N : Nat)
    (intermediateDiagrams : List (List (diagramTuple dataType float))) (i : Nat)
    (raw : List (diagramTuple dataType float)) (hi : i < N)
    (hraw : intermediateDiagrams[i]? = some raw) :
    (partitionsAfter N N intermediateDiagrams).data_min[i]? = some (raw.filter toMin) ∧
    (partitionsAfter N N intermediateDiagrams).data_sad[i]? = some (raw.filter toSad) ∧
    (partitionsAfter N N intermediateDiagrams).data_max[i]? = some (raw.filter toMax) ∧
    (partitionsAfter N N intermediateDiagrams).data_min_idx[i]?
      = some (positions toMin 0 raw) ∧
    (partitionsAfter N N intermediateDiagrams).data_sad_idx[i]?
      = some (positions toSad 0 raw) ∧
    (partitionsAfter N N intermediateDiagrams).data_max_idx[i]?
      = some (positions toMax 0 raw) := by
  simp [partitionsAfter, List.getElem?_map, List.getElem?_take, hi, hraw]

/-- C4 fails on one diagram of 2^31 + 1 (Saddle2, LocalMax) pairs of persistence 1:
the loop returns, every pair is kept in the "max" sub-diagram, and the "max" index map
is not an index map of it, because position 2^31 does not fit the `int` it is stored
in. -/
theorem C4_counterexample_index_wraps :
    ∃ p dmax imax,
      partitionDiagrams 1 [List.replicate (2 ^ 31 + 1) (mkPair BSaddle2 BLocalMax 1)]
        = some p ∧
      p.data_max[0]? = some dmax ∧ p.data_max_idx[0]? = some imax ∧
      ¬ IsIndexMap (List.replicate (2 ^ 31 + 1) (mkPair BSaddle2 BLocalMax 1)) dmax imax := by
  refine ⟨partitionsAfter 1 1 [List.replicate (2 ^ 31 + 1) (mkPair BSaddle2 BLocalMax 1)],
    (List.replicate (2 ^ 31 + 1) (mkPair BSaddle2 BLocalMax 1)).filter toMax,
    positions toMax 0 (List.replicate (2 ^ 31 + 1) (mkPair BSaddle2 BLocalMax 1)),
    (partitionDiagrams_eq_some_iff 1 _ _).mpr ⟨by decide, by decide, rfl⟩, ?_, ?_, ?_⟩
  · exact (partitionsAfter_getElem? 1 _ 0 _ (by decide) rfl).2.2.1
  · exact (partitionsAfter_getElem? 1 _ 0 _ (by decide) rfl).2.2.2.2.2
  · intro h
    exact positions_not_increasing toMax (mkPair BSaddle2 BLocalMax 1) (by decide)
      (2 ^ 31 + 1) (by norm_num) h.2.1

/-- C4, amended: if the input count is not negative and every input is there, the
partitioning loop returns, and for every input `i` whose raw diagram has at most 2^31
tuples and each of "min", "sad", "max", the index map of `i` has the length of the
sub-diagram of `i`, is strictly increasing, has all its values below the length of raw
diagram `i`, and entry `k` of the sub-diagram is the entry of the raw diagram at
position `idx[k]`. -/
theorem C4_index_maps (numberOfInputs_ : Int)
    (intermediateDiagrams : List (List (diagramTuple dataType float)))
    (h0 : 0 ≤ numberOfInputs_)
    (hlen : numberOfInputs_.toNat ≤ intermediateDiagrams.length) :
    ∃ p, partitionDiagrams numberOfInputs_ intermediateDiagrams = some p ∧
      ∀ i : Nat, i < numberOfInputs_.toNat →
        ∃ raw dmin dsad dmax imin isad imax,
          intermediateDiagrams[i]? = some raw ∧
          p.data_min[i]? = some dmin ∧ p.data_min_idx[i]? = some imin ∧
          p.data_sad[i]? = some dsad ∧ p.data_sad_idx[i]? = some isad ∧
          p.data_max[i]? = some dmax ∧ p.data_max_idx[i]? = some imax ∧
          (raw.length ≤ 2 ^ 31 →
            IsIndexMap raw dmin imin ∧ IsIndexMap raw dsad isad ∧
            IsIndexMap raw dmax imax) := by
  refine ⟨_, (partitionDiagrams_eq_some_iff _ _ _).mpr ⟨h0, hlen, rfl⟩, ?_⟩
  intro i hi
  have hlt : i < intermediateDiagrams.length := by omega
  have hraw : intermediateDiagrams[i]? = some intermediateDiagrams[i] :=
    List.getElem?_eq_getElem hlt
  obtain ⟨e1, e2, e3, e4, e5, e6⟩ :=
    partitionsAfter_getElem? numberOfInputs_.toNat intermediateDiagrams i _ hi hraw
  exact ⟨_, _, _, _, _, _, _, hraw, e1, e4, e2, e5, e3, e6, fun hD =>
    ⟨isIndexMap_positions toMin _ hD, isIndexMap_positions toSad _ hD,
      isIndexMap_positions toMax _ hD⟩⟩

/-- C4 at a concrete input: two diagrams, the second with a skipped pair in front; the
index maps of the second are [] for "min", [1] for "sad" and [] for "max". -/
theorem C4_index_maps_witness :
    (∃ p, partitionDiagrams 2
        [[mkPair BLocalMin BSaddle1 2, mkPair BSaddle2 BLocalMax 3],
         [mkPair BSaddle1 BSaddle2 0, mkPair BSaddle1 BSaddle2 4]] = some p ∧
      ∀ i : Nat, i < (2 : Int).toNat →
        ∃ raw dmin dsad dmax imin isad imax,
          [[mkPair BLocalMin BSaddle1 2, mkPair BSaddle2 BLocalMax 3],
           [mkPair BSaddle1 BSaddle2 0, mkPair BSaddle1 BSaddle2 4]][i]? = some raw ∧
          p.data_min[i]? = some dmin ∧ p.data_min_idx[i]? = some imin ∧
          p.data_sad[i]? = some dsad ∧ p.data_sad_idx[i]? = some isad ∧
          p.data_max[i]? = some dmax ∧ p.data_max_idx[i]? = some imax ∧
          (raw.length ≤ 2 ^ 31 →
            IsIndexMap raw dmin imin ∧ IsIndexMap raw dsad isad ∧
            IsIndexMap raw dmax imax)) ∧
    (partitionDiagrams 2
        [[mkPair BLocalMin BSaddle1 2, mkPair BSaddle2 BLocalMax 3],
         [mkPair BSaddle1 BSaddle2 0, mkPair BSaddle1 BSaddle2 4]]).map
      (fun p => (p.data_min_idx, p.data_sad_idx, p.data_max_idx))
      = some ([[0], []], [[], [1]], [[1], []]) :=
  ⟨C4_index_maps 2
    [[mkPair BLocalMin BSaddle1 2, mkPair BSaddle2 BLocalMax 3],
     [mkPair BSaddle1 BSaddle2 0, mkPair BSaddle1 BSaddle2 4]]
    (by decide) (by decide), by decide⟩

end index_maps

/-! ## The flags handed to the engine -/

section flags

variable {dataType float double BidderDiagram GoodDiagram matchingTuple : Type}
  [Zero dataType] [LT dataType]
  [DecidableRel ((fun a b => a < b) : dataType → dataType → Prop)]

/-- The engine settings are built exactly when the partitioning loop returns. -/
theorem executeSettings_eq
    (self : PersistenceDiagramDistanceMatrix double BidderDiagram GoodDiagram)
    (intermediateDiagrams : List (List (diagramTuple dataType float)))
    (p : Partitions dataType float)
    (hp : partitionDiagrams self.numberOfInputs_ intermediateDiagrams = some p) :
    executeSettings self intermediateDiagrams = some (engineSettings self p) := by
  simp [executeSettings, hp]

/-- A call of `execute` that returns has run the engine with the settings of
`executeSettings`. -/
theorem execute_KMeans
    (self : PersistenceDiagramDistanceMatrix double BidderDiagram GoodDiagram)
    (KMeans_execute : PDDistMatSettings dataType float double →
      Option (PDDistMatOutput double))
    (intermediateDiagrams : List (List (diagramTuple dataType float)))
    (all_matchings : List (List (List matchingTuple)))
    (r : ExecuteResult dataType float double BidderDiagram GoodDiagram matchingTuple)
    (hr : execute self KMeans_execute intermediateDiagrams all_matchings = some r) :
    executeSettings self intermediateDiagrams = some r.KMeans := by
  unfold execute at hr
  unfold executeSettings
  cases hp : partitionDiagrams self.numberOfInputs_ intermediateDiagrams with
  | none => simp [hp] at hr
  | some p =>
    simp only [hp] at hr ⊢
    cases he : KMeans_execute (engineSettings self p) with
    | none => simp [he] at hr
    | some out =>
      simp only [he] at hr
      cases hl : reconstructLoop out.inv_clustering self.numberOfInputs_.toNat
          ([], List.replicate self.numberOfInputs_.toNat 0) with
      | none => simp [hl] at hr
      | some st =>
        obtain ⟨cs, ic⟩ := st
        simp only [hl] at hr
        by_cases hk : self.n_clusters_ < 0
        · simp [hk] at hr
        · simp only [hk, if_false, Option.some.injEq] at hr
          rw [← hr]

/-- A flag of the partitioning loop is set exactly when some input has a non-empty
sub-diagram of that kind. -/
theorem any_any_iff {α : Type} (q : α → Bool) (l : List (List α)) (N : Nat)
    (hN : N ≤ l.length) :
    (l.take N).any (fun D => D.any q) = true ↔
      ∃ (i : Nat) (D : List α), i < N ∧
        ((l.take N).map (List.filter q) ++ List.replicate (N - N) [])[i]? = some D ∧
        D ≠ [] := by
  simp only [Nat.sub_self, List.replicate_zero, List.append_nil, List.any_eq_true]
  constructor
  · rintro ⟨D, hD, t, ht, hq⟩
    obtain ⟨i, hi, rfl⟩ := List.getElem_of_mem hD
    have hiN : i < N := by
      simp only [List.length_take] at hi
      omega
    refine ⟨i, List.filter q (l.take N)[i], hiN, ?_, ?_⟩
    · rw [List.getElem?_map, List.getElem?_eq_getElem hi]
      rfl
    · intro hnil
      have := List.filter_eq_nil_iff.mp hnil t ht
      exact this hq
  · rintro ⟨i, D, _, hD, hne⟩
    rw [List.getElem?_map] at hD
    cases hraw : (l.take N)[i]? with
    | none => simp [hraw] at hD
    | some raw =>
      simp only [hraw, Option.map_some', Option.some.injEq] at hD
      subst hD
      obtain ⟨t, ht⟩ := List.exists_mem_of_ne_nil _ hne
      exact ⟨raw, List.mem_iff_getElem?.mpr ⟨i, hraw⟩, t, (List.mem_filter.mp ht).1,
        (List.mem_filter.mp ht).2⟩

/-- C5: if the input count is not negative and every input is there, `execute` reaches
the engine, and the flags it passes to `setDos` are those of the partitioning loop
except that selector 0 clears `do_sad` and `do_max`, selector 1 clears `do_min` and
`do_max`, selector 2 clears `do_min` and `do_sad`; any other selector leaves the three
flags as the loop computed them, and the flag of a selected partition always keeps the
value computed by the loop. These are the settings of every call of `execute` that
returns, whatever the engine does with them. -/
theorem C5_selector_flags
    (self : PersistenceDiagramDistanceMatrix double BidderDiagram GoodDiagram)
    (intermediateDiagrams : List (List (diagramTuple dataType float)))
    (h0 : 0 ≤ self.numberOfInputs_)
    (hlen : self.numberOfInputs_.toNat ≤ intermediateDiagrams.length) :
    ∃ p KMeans,
      partitionDiagrams self.numberOfInputs_ intermediateDiagrams = some p ∧
      executeSettings self intermediateDiagrams = some KMeans ∧
      (self.pairTypeClustering_ = 0 → KMeans.Dos = ⟨p.do_min, false, false⟩) ∧
      (self.pairTypeClustering_ = 1 → KMeans.Dos = ⟨false, p.do_sad, false⟩) ∧
      (self.pairTypeClustering_ = 2 → KMeans.Dos = ⟨false, false, p.do_max⟩) ∧
      (self.pairTypeClustering_ ≠ 0 → self.pairTypeClustering_ ≠ 1 →
        self.pairTypeClustering_ ≠ 2 → KMeans.Dos = ⟨p.do_min, p.do_sad, p.do_max⟩) ∧
      (∀ (KMeans_execute : PDDistMatSettings dataType float double →
            Option (PDDistMatOutput double))
          (all_matchings : List (List (List matchingTuple)))
          (r : ExecuteResult dataType float double BidderDiagram GoodDiagram matchingTuple),
          execute self KMeans_execute intermediateDiagrams all_matchings = some r →
            r.KMeans = KMeans) := by
  have hp := (partitionDiagrams_eq_some_iff self.numberOfInputs_ intermediateDiagrams _).mpr
    ⟨h0, hlen, rfl⟩
  refine ⟨_, _, hp, executeSettings_eq self intermediateDiagrams _ hp, ?_, ?_, ?_, ?_, ?_⟩
  · intro h
    simp [engineSettings, pairTypeSwitch, h]
  · intro h
    simp [engineSettings, pairTypeSwitch, h]
  · intro h
    simp [engineSettings, pairTypeSwitch, h]
  · intro h0 h1 h2
    simp [engineSettings, pairTypeSwitch, h0, h1, h2]
  · intro engine am r hr
    have h1 := execute_KMeans self engine intermediateDiagrams am r hr
    rw [executeSettings_eq self intermediateDiagrams _ hp] at h1
    exact (Option.some.inj h1).symm

/-- C5 at a concrete input: selector 0 on one input holding a (LocalMin, Saddle1) and
a (Saddle2, LocalMax) pair. -/
theorem C5_selector_flags_witness :
    ∃ p KMeans,
      partitionDiagrams (mkObject 1 1 0).numberOfInputs_
        [[mkPair BLocalMin BSaddle1 2, mkPair BSaddle2 BLocalMax 3]] = some p ∧
      executeSettings (mkObject 1 1 0)
        [[mkPair BLocalMin BSaddle1 2, mkPair BSaddle2 BLocalMax 3]] = some KMeans ∧
      ((mkObject 1 1 0).pairTypeClustering_ = 0 → KMeans.Dos = ⟨p.do_min, false, false⟩) ∧
      ((mkObject 1 1 0).pairTypeClustering_ = 1 → KMeans.Dos = ⟨false, p.do_sad, false⟩) ∧
      ((mkObject 1 1 0).pairTypeClustering_ = 2 → KMeans.Dos = ⟨false, false, p.do_max⟩) ∧
      ((mkObject 1 1 0).pairTypeClustering_ ≠ 0 → (mkObject 1 1 0).pairTypeClustering_ ≠ 1 →
        (mkObject 1 1 0).pairTypeClustering_ ≠ 2 →
          KMeans.Dos = ⟨p.do_min, p.do_sad, p.do_max⟩) ∧
      (∀ (KMeans_execute : PDDistMatSettings Int Int Int → Option (PDDistMatOutput Int))
          (all_matchings : List (List (List Unit)))
          (r : ExecuteResult Int Int Int Unit Unit Unit),
          execute (mkObject 1 1 0) KMeans_execute
            [[mkPair BLocalMin BSaddle1 2, mkPair BSaddle2 BLocalMax 3]]
            all_matchings = some r → r.KMeans = KMeans) :=
  C5_selector_flags (mkObject 1 1 0)
    [[mkPair BLocalMin BSaddle1 2, mkPair BSaddle2 BLocalMax 3]] (by decide) (by decide)

/-- C6: if the input count is not negative and every input is there, `execute` reaches
the engine, and for each of "min", "sad", "max" that the selector does not disable, the
flag passed to `setDos` is true if and only if one of the `numberOfInputs_` inputs has
a non-empty sub-diagram of that kind. -/
theorem C6_flag_iff_nonempty
    (self : PersistenceDiagramDistanceMatrix double BidderDiagram GoodDiagram)
    (intermediateDiagrams : List (List (diagramTuple dataType float)))
    (h0 : 0 ≤ self.numberOfInputs_)
    (hlen : self.numberOfInputs_.toNat ≤ intermediateDiagrams.length) :
    ∃ p KMeans,
      partitionDiagrams self.numberOfInputs_ intermediateDiagrams = some p ∧
      executeSettings self intermediateDiagrams = some KMeans ∧
      (self.pairTypeClustering_ ≠ 1 → self.pairTypeClustering_ ≠ 2 →
        (KMeans.Dos.do_min = true ↔
          ∃ (i : Nat) (D : List (diagramTuple dataType float)),
            i < self.numberOfInputs_.toNat ∧ p.data_min[i]? = some D ∧ D ≠ [])) ∧
      (self.pairTypeClustering_ ≠ 0 → self.pairTypeClustering_ ≠ 2 →
        (KMeans.Dos.do_sad = true ↔
          ∃ (i : Nat) (D : List (diagramTuple dataType float)),
            i < self.numberOfInputs_.toNat ∧ p.data_sad[i]? = some D ∧ D ≠ [])) ∧
      (self.pairTypeClustering_ ≠ 0 → self.pairTypeClustering_ ≠ 1 →
        (KMeans.Dos.do_max = true ↔
          ∃ (i : Nat) (D : List (diagramTuple dataType float)),
            i < self.numberOfInputs_.toNat ∧ p.data_max[i]? = some D ∧ D ≠ [])) := by
  have hp := (partitionDiagrams_eq_some_iff self.numberOfInputs_ intermediateDiagrams _).mpr
    ⟨h0, hlen, rfl⟩
  refine ⟨_, _, hp, executeSettings_eq self intermediateDiagrams _ hp, ?_, ?_, ?_⟩
  · intro h1 h2
    refine Iff.trans ?_ (any_any_iff toMin intermediateDiagrams _ hlen)
    by_cases h : self.pairTypeClustering_ = 0 <;>
      simp [engineSettings, pairTypeSwitch, h, h1, h2, partitionsAfter]
  · intro h1 h2
    refine Iff.trans ?_ (any_any_iff toSad intermediateDiagrams _ hlen)
    by_cases h : self.pairTypeClustering_ = 1 <;>
      simp [engineSettings, pairTypeSwitch, h, h1, h2, partitionsAfter]
  · intro h1 h2
    refine Iff.trans ?_ (any_any_iff toMax intermediateDiagrams _ hlen)
    by_cases h : self.pairTypeClustering_ = 2 <;>
      simp [engineSettings, pairTypeSwitch, h, h1, h2, partitionsAfter]

/-- C6 at a concrete input: every selector value left free, two inputs of which only
the second has a pair, a (Saddle2, LocalMax) one. -/
theorem C6_flag_iff_nonempty_witness :
    ∃ p KMeans,
      partitionDiagrams (mkObject 2 1 7).numberOfInputs_
        [[], [mkPair BSaddle2 BLocalMax 3]] = some p ∧
      executeSettings (mkObject 2 1 7) [[], [mkPair BSaddle2 BLocalMax 3]] = some KMeans ∧
      ((mkObject 2 1 7).pairTypeClustering_ ≠ 1 → (mkObject 2 1 7).pairTypeClustering_ ≠ 2 →
        (KMeans.Dos.do_min = true ↔
          ∃ (i : Nat) (D : List (diagramTuple Int Int)),
            i < (mkObject 2 1 7).numberOfInputs_.toNat ∧ p.data_min[i]? = some D ∧ D ≠ [])) ∧
      ((mkObject 2 1 7).pairTypeClustering_ ≠ 0 → (mkObject 2 1 7).pairTypeClustering_ ≠ 2 →
        (KMeans.Dos.do_sad = true ↔
          ∃ (i : Nat) (D : List (diagramTuple Int Int)),
            i < (mkObject 2 1 7).numberOfInputs_.toNat ∧ p.data_sad[i]? = some D ∧ D ≠ [])) ∧
      ((mkObject 2 1 7).pairTypeClustering_ ≠ 0 → (mkObject 2 1 7).pairTypeClustering_ ≠ 1 →
        (KMeans.Dos.do_max = true ↔
          ∃ (i : Nat) (D : List (diagramTuple Int Int)),
            i < (mkObject 2 1 7).numberOfInputs_.toNat ∧ p.data_max[i]? = some D ∧ D ≠ [])) :=
  C6_flag_iff_nonempty (mkObject 2 1 7) [[], [mkPair BSaddle2 BLocalMax 3]]
    (by decide) (by decide)

/-- C7: with selector 0 on inputs all of whose pairs have one type Saddle1 or Saddle2
and the other LocalMax, `execute` reaches the engine (the input count not negative,
every input there), the "min" sub-diagram of every input is empty and the three flags
passed to `setDos` are false. -/
theorem C7_only_max_pairs_selector_zero
    (self : PersistenceDiagramDistanceMatrix double BidderDiagram GoodDiagram)
    (intermediateDiagrams : List (List (diagramTuple dataType float)))
    (h0 : 0 ≤ self.numberOfInputs_)
    (hlen : self.numberOfInputs_.toNat ≤ intermediateDiagrams.length)
    (hsel : self.pairTypeClustering_ = 0)
    (hmax : ∀ D ∈ intermediateDiagrams, ∀ t ∈ D,
      ((t.get1 = BSaddle1 ∨ t.get1 = BSaddle2) ∧ t.get3 = BLocalMax) ∨
      (t.get1 = BLocalMax ∧ (t.get3 = BSaddle1 ∨ t.get3 = BSaddle2))) :
    ∃ p KMeans,
      partitionDiagrams self.numberOfInputs_ intermediateDiagrams = some p ∧
      executeSettings self intermediateDiagrams = some KMeans ∧
      p.data_min.length = self.numberOfInputs_.toNat ∧
      (∀ D ∈ p.data_min, D = []) ∧
      KMeans.Dos = ⟨false, false, false⟩ := by
  have hp := (partitionDiagrams_eq_some_iff self.numberOfInputs_ intermediateDiagrams _).mpr
    ⟨h0, hlen, rfl⟩
  have hmin : ∀ D ∈ intermediateDiagrams.take self.numberOfInputs_.toNat,
      ∀ t ∈ D, toMin t = false := by
    intro D hD t ht
    rcases hmax D (List.mem_of_mem_take hD) t ht with ⟨h1 | h1, h2⟩ | ⟨h1, h2 | h2⟩ <;>
      simp [toMin, h1, h2]
  refine ⟨_, _, hp, executeSettings_eq self intermediateDiagrams _ hp, ?_, ?_, ?_⟩
  · simp [partitionsAfter, List.length_take, Nat.min_eq_left hlen]
  · intro D hD
    simp only [partitionsAfter, Nat.sub_self, List.replicate_zero, List.append_nil,
      List.mem_map] at hD
    obtain ⟨D0, hD0, rfl⟩ := hD
    rw [List.filter_eq_nil_iff]
    intro t ht
    simp [hmin D0 hD0 t ht]
  · have hany : (intermediateDiagrams.take self.numberOfInputs_.toNat).any
        (fun D => D.any toMin) = false := by
      rw [List.any_eq_false]
      intro D hD
      have : D.any toMin = false := by
        rw [List.any_eq_false]
        intro t ht
        simp [hmin D hD t ht]
      simp [this]
    simp [engineSettings, pairTypeSwitch, hsel, partitionsAfter, hany]

/-- C7 at a concrete input: two inputs with (Saddle2, LocalMax) and (LocalMax, Saddle1)
pairs. -/
theorem C7_only_max_pairs_selector_zero_witness :
    ∃ p KMeans,
      partitionDiagrams (mkObject 2 1 0).numberOfInputs_
        [[mkPair BSaddle2 BLocalMax 3], [mkPair BLocalMax BSaddle1 4]] = some p ∧
      executeSettings (mkObject 2 1 0)
        [[mkPair BSaddle2 BLocalMax 3], [mkPair BLocalMax BSaddle1 4]] = some KMeans ∧
      p.data_min.length = (mkObject 2 1 0).numberOfInputs_.toNat ∧
      (∀ D ∈ p.data_min, D = []) ∧
      KMeans.Dos = ⟨false, false, false⟩ :=
  C7_only_max_pairs_selector_zero (mkObject 2 1 0)
    [[mkPair BSaddle2 BLocalMax 3], [mkPair BLocalMax BSaddle1 4]]
    (by decide) (by decide) (by decide) (by decide)

end flags

/-! ## The output argument `all_matchings` and the cluster count -/

section output

variable {dataType float double BidderDiagram GoodDiagram matchingTuple : Type}
  [Zero dataType] [LT dataType]
  [DecidableRel ((fun a b => a < b) : dataType → dataType → Prop)]

/-- What a call of `execute` that returns has done to `all_matchings`: resized it to
`n_clusters_` rows, each row resized to `numberOfInputs_` entries, existing entries
kept and new ones empty. -/
theorem execute_all_matchings
    (self : PersistenceDiagramDistanceMatrix double BidderDiagram GoodDiagram)
    (KMeans_execute : PDDistMatSettings dataType float double →
      Option (PDDistMatOutput double))
    (intermediateDiagrams : List (List (diagramTuple dataType float)))
    (all_matchings : List (List (List matchingTuple)))
    (r : ExecuteResult dataType float double BidderDiagram GoodDiagram matchingTuple)
    (hr : execute self KMeans_execute intermediateDiagrams all_matchings = some r) :
    r.all_matchings = (resize all_matchings self.n_clusters_.toNat []).map
      (fun m => resize m self.numberOfInputs_.toNat []) := by
  unfold execute at hr
  cases hp : partitionDiagrams self.numberOfInputs_ intermediateDiagrams with
  | none => simp [hp] at hr
  | some p =>
    simp only [hp] at hr
    cases he : KMeans_execute (engineSettings self p) with
    | none => simp [he] at hr
    | some out =>
      simp only [he] at hr
      cases hl : reconstructLoop out.inv_clustering self.numberOfInputs_.toNat
          ([], List.replicate self.numberOfInputs_.toNat 0) with
      | none => simp [hl] at hr
      | some st =>
        obtain ⟨cs, ic⟩ := st
        simp only [hl] at hr
        by_cases hk : self.n_clusters_ < 0
        · simp [hk] at hr
        · simp only [hk, if_false, Option.some.injEq] at hr
          rw [← hr]

/-- C8, on the code: a call of `execute` that is given an empty `all_matchings` and
returns leaves in it `n_clusters_` rows of `numberOfInputs_` empty matchings each, so
that no entry of it holds a matching, whatever the engine has computed, whatever the
diagrams contain and whichever partitions are active. -/
theorem C8_all_matchings_left_empty
    (self : PersistenceDiagramDistanceMatrix double BidderDiagram GoodDiagram)
    (KMeans_execute : PDDistMatSettings dataType float double →
      Option (PDDistMatOutput double))
    (intermediateDiagrams : List (List (diagramTuple dataType float)))
    (r : ExecuteResult dataType float double BidderDiagram GoodDiagram matchingTuple)
    (hr : execute self KMeans_execute intermediateDiagrams [] = some r) :
    r.all_matchings = List.replicate self.n_clusters_.toNat
      (List.replicate self.numberOfInputs_.toNat []) := by
  rw [execute_all_matchings self KMeans_execute intermediateDiagrams [] r hr]
  simp [resize]

/-- C8 at the failing input: one input with one (Saddle2, LocalMax) pair of persistence
1, one cluster, every partition selected, the engine assigning the input to cluster 0.
The call returns, the flag `do_max` handed to the engine is true, and the only entry of
`all_matchings` is the empty matching. -/
theorem C8_all_matchings_left_empty_witness :
    ∃ r : ExecuteResult Int Int Int Unit Unit Unit,
      execute (mkObject 1 1 5) (PDDistMat.execute (fun _ => oneCluster 1))
        [[mkPair BSaddle2 BLocalMax 1]] [] = some r ∧
      r.KMeans.Dos.do_max = true ∧ r.inv_clustering = [0] ∧
      r.all_matchings = List.replicate (mkObject 1 1 5).n_clusters_.toNat
        (List.replicate (mkObject 1 1 5).numberOfInputs_.toNat []) ∧
      r.all_matchings = [[[]]] :=
  ⟨_, rfl, rfl, rfl,
    C8_all_matchings_left_empty (mkObject 1 1 5) (PDDistMat.execute (fun _ => oneCluster 1))
      [[mkPair BSaddle2 BLocalMax 1]] _ rfl, rfl⟩

/-- C9: with a cluster count K = `n_clusters_` such that K ≤ 0 or K > N =
`numberOfInputs_`, the call of `execute` fails: it returns no assignment and leaves no
output, whatever the diagrams, the argument `all_matchings` and the clustering the
engine would have produced. -/
theorem C9_bad_cluster_count_fails
    (self : PersistenceDiagramDistanceMatrix double BidderDiagram GoodDiagram)
    (clustering : PDDistMatSettings dataType float double → PDDistMatOutput double)
    (intermediateDiagrams : List (List (diagramTuple dataType float)))
    (all_matchings : List (List (List matchingTuple)))
    (hK : self.n_clusters_ ≤ 0 ∨ self.n_clusters_ > self.numberOfInputs_) :
    (execute self (PDDistMat.execute clustering) intermediateDiagrams all_matchings
      : Option (ExecuteResult dataType float double BidderDiagram GoodDiagram matchingTuple))
      = none := by
  unfold execute
  cases hp : partitionDiagrams self.numberOfInputs_ intermediateDiagrams with
  | none => rfl
  | some p =>
    have he : PDDistMat.execute clustering (engineSettings self p) = none := by
      simp only [PDDistMat.execute, engineSettings]
      rw [if_pos hK]
    simp only [he]

/-- C9 at concrete configurations: two inputs with K = 0 and with K = 3. -/
theorem C9_bad_cluster_count_fails_witness :
    (execute (mkObject 2 0 5) (PDDistMat.execute (fun _ => oneCluster 2))
        [[mkPair BSaddle2 BLocalMax 1], []] []
      : Option (ExecuteResult Int Int Int Unit Unit Unit)) = none ∧
    (execute (mkObject 2 3 5) (PDDistMat.execute (fun _ => oneCluster 2))
        [[mkPair BSaddle2 BLocalMax 1], []] []
      : Option (ExecuteResult Int Int Int Unit Unit Unit)) = none :=
  ⟨C9_bad_cluster_count_fails (mkObject 2 0 5) (fun _ => oneCluster 2) _ []
      (Or.inl (by decide)),
    C9_bad_cluster_count_fails (mkObject 2 3 5) (fun _ => oneCluster 2) _ []
      (Or.inr (by decide))⟩

/-- The method `execute` has no test of the cluster count of its own: with a count that
is not negative it returns whatever assignment the engine returns, as long as the
bookkeeping loop can read it. -/
theorem execute_returns_engine_assignment
    (self : PersistenceDiagramDistanceMatrix double BidderDiagram GoodDiagram)
    (KMeans_execute : PDDistMatSettings dataType float double →
      Option (PDDistMatOutput double))
    (intermediateDiagrams : List (List (diagramTuple dataType float)))
    (all_matchings : List (List (List matchingTuple)))
    (p : Partitions dataType float) (out : PDDistMatOutput double)
    (st : List Int × List Int)
    (hp : partitionDiagrams self.numberOfInputs_ intermediateDiagrams = some p)
    (he : KMeans_execute (engineSettings self p) = some out)
    (hl : reconstructLoop out.inv_clustering self.numberOfInputs_.toNat
      ([], List.replicate self.numberOfInputs_.toNat 0) = some st)
    (hK : 0 ≤ self.n_clusters_) :
    ∃ r : ExecuteResult dataType float double BidderDiagram GoodDiagram matchingTuple,
      execute self KMeans_execute intermediateDiagrams all_matchings = some r ∧
      r.inv_clustering = out.inv_clustering := by
  have hk : ¬ self.n_clusters_ < 0 := by omega
  obtain ⟨cs, ic⟩ := st
  unfold execute
  simp only [hp, he, hl, hk, if_false]
  exact ⟨_, rfl, rfl⟩

end output

/-! ## `setWasserstein` -/

section wasserstein

theorem digitChar_mem : ∀ k : Nat, k < 10 →
    Nat.digitChar k ∈ decimalDigits ∧ (Nat.digitChar k).toNat - 48 = k := by
  decide

theorem decimalDigits_spec : ∀ c ∈ decimalDigits,
    c.isDigit = true ∧ isspace c = false ∧ c ≠ '-' ∧ c ≠ '+' ∧ c ≠ 'i' := by
  decide

theorem foldl_digits_append (L : List Char) (c : Char) (a : Nat) :
    (L ++ [c]).foldl (fun acc c => 10 * acc + (c.toNat - 48)) a
      = 10 * L.foldl (fun acc c => 10 * acc + (c.toNat - 48)) a + (c.toNat - 48) := by
  rw [List.foldl_append]
  rfl

/-- The digits `Nat.toDigitsCore` puts in front of its accumulator: a non-empty run of
decimal digits whose value is the number. -/
theorem toDigitsCore_spec : ∀ (fuel n : Nat) (ds : List Char), n < fuel →
    ∃ L : List Char, Nat.toDigitsCore 10 fuel n ds = L ++ ds ∧ L ≠ [] ∧
      (∀ c ∈ L, c ∈ decimalDigits) ∧ digitsValue L = n := by
  intro fuel
  induction fuel with
  | zero => intro n ds h; omega
  | succ fuel ih =>
    intro n ds hn
    have hd := digitChar_mem (n % 10) (Nat.mod_lt n (by norm_num))
    by_cases h0 : n / 10 = 0
    · refine ⟨[Nat.digitChar (n % 10)], ?_, by simp, ?_, ?_⟩
      · simp [Nat.toDigitsCore, h0]
      · intro c hc
        rw [List.mem_singleton] at hc
        rw [hc]
        exact hd.1
      · have : n % 10 = n := Nat.mod_eq_of_lt (by omega)
        simp only [digitsValue, List.foldl_cons, List.foldl_nil, hd.2]
        omega
    · obtain ⟨L, hL1, _, hL3, hL4⟩ :=
        ih (n / 10) (Nat.digitChar (n % 10) :: ds) (by omega)
      refine ⟨L ++ [Nat.digitChar (n % 10)], ?_, by simp, ?_, ?_⟩
      · simp only [Nat.toDigitsCore, h0, if_false]
        rw [hL1]
        simp
      · intro c hc
        rcases List.mem_append.mp hc with h | h
        · exact hL3 c h
        · rw [List.mem_singleton] at h
          rw [h]
          exact hd.1
      · unfold digitsValue at hL4 ⊢
        rw [foldl_digits_append, hL4, hd.2]
        omega

theorem toDigits_spec (n : Nat) :
    Nat.toDigits 10 n ≠ [] ∧ (∀ c ∈ Nat.toDigits 10 n, c ∈ decimalDigits) ∧
      digitsValue (Nat.toDigits 10 n) = n := by
  obtain ⟨L, h1, h2, h3, h4⟩ := toDigitsCore_spec (n + 1) n [] (by omega)
  rw [List.append_nil] at h1
  unfold Nat.toDigits
  rw [h1]
  exact ⟨h2, h3, h4⟩

/-- On a non-empty run of decimal digits `std::stoi` returns its value, if it fits. -/
theorem stoi_digits (L : List Char) (hne : L ≠ []) (hL : ∀ c ∈ L, c ∈ decimalDigits)
    (hfit : digitsValue L < 2 ^ 31) : stoi L = some (digitsValue L : Int) := by
  obtain ⟨c, rest, rfl⟩ := List.exists_cons_of_ne_nil hne
  have hc := decimalDigits_spec c (hL c (List.mem_cons_self _ _))
  have htake : (c :: rest).takeWhile Char.isDigit = c :: rest :=
    List.takeWhile_eq_self_iff.mpr (fun x hx => (decimalDigits_spec x (hL x hx)).1)
  have hdrop : (c :: rest).dropWhile isspace = c :: rest := by
    rw [List.dropWhile_cons_of_neg (by simp [hc.2.1])]
  unfold stoi
  have hv : List.foldl (fun acc c => 10 * acc + (c.toNat - 48)) 0 (c :: rest)
      = digitsValue (c :: rest) := rfl
  simp only [hdrop, List.head?_cons, Option.some.injEq, hc.2.2.1, hc.2.2.2.1, or_self,
    if_false, htake, decide_False, hv, Bool.false_eq_true, hne]
  have h1 : (digitsValue (c :: rest) : Int) < 2 ^ 31 := by exact_mod_cast hfit
  have h2 : (-2 ^ 31 : Int) ≤ (digitsValue (c :: rest) : Int) := by
    have : (0 : Int) ≤ (digitsValue (c :: rest) : Int) := Int.natCast_nonneg _
    omega
  rw [if_pos (And.intro h2 h1)]

/-- On a minus sign followed by a non-empty run of decimal digits `std::stoi` returns
the opposite of its value, if it fits. -/
theorem stoi_minus_digits (L : List Char) (hne : L ≠ []) (hL : ∀ c ∈ L, c ∈ decimalDigits)
    (hfit : digitsValue L ≤ 2 ^ 31) : stoi ('-' :: L) = some (-(digitsValue L : Int)) := by
  have htake : L.takeWhile Char.isDigit = L :=
    List.takeWhile_eq_self_iff.mpr (fun x hx => (decimalDigits_spec x (hL x hx)).1)
  have hdrop : ('-' :: L).dropWhile isspace = '-' :: L := by
    rw [List.dropWhile_cons_of_neg (by decide)]
  unfold stoi
  have hv : List.foldl (fun acc c => 10 * acc + (c.toNat - 48)) 0 L = digitsValue L := rfl
  simp only [hdrop, List.head?_cons, true_or, if_true, List.tail_cons, htake, hne,
    if_false, decide_True, hv]
  have h1 : (-(digitsValue L : Int)) < 2 ^ 31 := by
    have : (0 : Int) ≤ (digitsValue L : Int) := Int.natCast_nonneg _
    omega
  have h2 : (-2 ^ 31 : Int) ≤ -(digitsValue L : Int) := by
    have : (digitsValue L : Int) ≤ 2 ^ 31 := by exact_mod_cast hfit
    omega
  rw [if_pos (And.intro h2 h1)]

/-- The function `std::stoi` reads back the decimal representation of every `int`. -/
theorem stoi_decimal (n : Int) (hlo : -2 ^ 31 ≤ n) (hhi : n < 2 ^ 31) :
    stoi (decimal n).data = some n := by
  obtain ⟨h1, h2, h3⟩ := toDigits_spec n.natAbs
  unfold decimal
  by_cases hneg : n < 0
  · simp only [hneg, if_true]
    rw [stoi_minus_digits _ h1 h2 (by rw [h3]; omega), h3]
    congr 1
    omega
  · simp only [hneg, if_false]
    rw [stoi_digits _ h1 h2 (by rw [h3]; omega), h3]
    congr 1
    omega

/-- The representation `decimal` is the one the standard library prints. -/
theorem decimal_eq_toString (n : Int) : decimal n = toString n := by
  cases n with
  | ofNat m => rfl
  | negSucc m =>
    have h : Int.negSucc m < 0 := Int.negSucc_lt_zero m
    unfold decimal
    rw [if_pos h]
    rfl

theorem decimal_ne_inf (n : Int) : decimal n ≠ "inf" := by
  obtain ⟨h1, h2, _⟩ := toDigits_spec n.natAbs
  obtain ⟨c, rest, hc⟩ := List.exists_cons_of_ne_nil h1
  have hd := decimalDigits_spec c (h2 c (by rw [hc]; exact List.mem_cons_self _ _))
  intro h
  have hdata := congrArg String.data h
  unfold decimal at hdata
  by_cases hneg : n < 0
  · simp only [hneg, if_true] at hdata
    have := List.head_eq_of_cons_eq hdata
    revert this
    decide
  · simp only [hneg, if_false, hc] at hdata
    have := List.head_eq_of_cons_eq hdata
    exact hd.2.2.2.2 this

/-- C10: `setWasserstein` stores -1 for "inf", 1 for "1" and 2 for "2", three distinct
orders; every string that is the decimal representation of an `int` n (the string the
standard library prints for n, never "inf") is stored as n; and in each case the call
returns and changes no field of the object other than `wasserstein_`. -/
theorem C10_setWasserstein {double BidderDiagram GoodDiagram : Type}
    (self : PersistenceDiagramDistanceMatrix double BidderDiagram GoodDiagram) :
    setWasserstein self "inf" = some { self with wasserstein_ := -1 } ∧
    setWasserstein self "1" = some { self with wasserstein_ := 1 } ∧
    setWasserstein self "2" = some { self with wasserstein_ := 2 } ∧
    ((-1 : Int) ≠ 1 ∧ (-1 : Int) ≠ 2 ∧ (1 : Int) ≠ 2) ∧
    (∀ n : Int, -2 ^ 31 ≤ n → n < 2 ^ 31 →
      decimal n = toString n ∧ decimal n ≠ "inf" ∧
      setWasserstein self (decimal n) = some { self with wasserstein_ := n }) := by
  refine ⟨?_, ?_, ?_, by decide, ?_⟩
  · simp [setWasserstein]
  · have h : stoi "1".data = some 1 := by decide
    simp [setWasserstein, h]
  · have h : stoi "2".data = some 2 := by decide
    simp [setWasserstein, h]
  · intro n hlo hhi
    refine ⟨decimal_eq_toString n, decimal_ne_inf n, ?_⟩
    unfold setWasserstein
    rw [if_neg (decimal_ne_inf n), stoi_decimal n hlo hhi]

/-- C10 at concrete strings: the object of the constructor, the orders "inf", "1", "2",
and the representations "-17" and "2147483647". -/
theorem C10_setWasserstein_witness :
    (setWasserstein (mkObject 1 1 5) "inf" = some { mkObject 1 1 5 with wasserstein_ := -1 } ∧
    setWasserstein (mkObject 1 1 5) "1" = some { mkObject 1 1 5 with wasserstein_ := 1 } ∧
    setWasserstein (mkObject 1 1 5) "2" = some { mkObject 1 1 5 with wasserstein_ := 2 } ∧
    ((-1 : Int) ≠ 1 ∧ (-1 : Int) ≠ 2 ∧ (1 : Int) ≠ 2) ∧
    (∀ n : Int, -2 ^ 31 ≤ n → n < 2 ^ 31 →
      decimal n = toString n ∧ decimal n ≠ "inf" ∧
      setWasserstein (mkObject 1 1 5) (decimal n)
        = some { mkObject 1 1 5 with wasserstein_ := n })) ∧
    decimal (-17) = "-17" ∧ decimal 2147483647 = "2147483647" ∧
    setWasserstein (mkObject 1 1 5) (decimal (-17))
      = some { mkObject 1 1 5 with wasserstein_ := -17 } :=
  ⟨C10_setWasserstein (mkObject 1 1 5), by decide, by decide,
    ((C10_setWasserstein (mkObject 1 1 5)).2.2.2.2 (-17) (by decide) (by decide)).2.2⟩

end wasserstein

/-! ## The number of sub-diagrams a pair is copied into -/

section copies_lemmas

variable {dataType float : Type} [Zero dataType] [LT dataType]
  [DecidableRel ((fun a b => a < b) : dataType → dataType → Prop)]

theorem grownBy_modify {α : Type} (v : List (List α)) (i : Nat) (e : List α)
    (hi : i < v.length) :
    grownBy v (v.modify (fun w => w ++ e) i) i = e.length := by
  unfold grownBy
  rw [List.getElem?_modify_eq, List.getElem?_eq_getElem hi]
  simp

/-- The growth of each of the three sub-diagrams of input `i` under the loop body. -/
theorem grownBy_partitionStep (i j : Nat) (t : diagramTuple dataType float)
    (s : Partitions dataType float)
    (hmin : i < s.data_min.length) (hsad : i < s.data_sad.length)
    (hmax : i < s.data_max.length) :
    grownBy s.data_min (partitionStep i j t s).data_min i = (if toMin t then 1 else 0) ∧
    grownBy s.data_sad (partitionStep i j t s).data_sad i = (if toSad t then 1 else 0) ∧
    grownBy s.data_max (partitionStep i j t s).data_max i = (if toMax t then 1 else 0) := by
  rw [partitionStep_eq]
  simp only [grownBy_modify _ _ _ hmin, grownBy_modify _ _ _ hsad, grownBy_modify _ _ _ hmax]
  refine ⟨?_, ?_, ?_⟩
  · cases toMin t <;> simp
  · cases toSad t <;> simp
  · cases toMax t <;> simp

/-- The copies made by the loop body: let `t` be a pair of positive persistence whose two critical types are among
LocalMin, Saddle1, Saddle2, LocalMax, handled by the loop body for an input `i` of the
tables. The number of sub-diagrams of `i` that gain a copy of `t` is 0 exactly when the
types are (Saddle1, Saddle1) or (Saddle2, Saddle2), 2 exactly when they are
(LocalMax, LocalMin) in this order, and then the copies go to "max" and "min", and 1 in
every other case; it is never 3, and a pair copied into "sad" is copied neither into
"min" nor into "max". -/
theorem partitionStep_number_of_copies (i j : Nat) (t : diagramTuple dataType float)
    (s : Partitions dataType float)
    (hmin : i < s.data_min.length) (hsad : i < s.data_sad.length)
    (hmax : i < s.data_max.length) (hpos : 0 < t.get4)
    (h1 : t.get1 = BLocalMin ∨ t.get1 = BSaddle1 ∨ t.get1 = BSaddle2 ∨ t.get1 = BLocalMax)
    (h3 : t.get3 = BLocalMin ∨ t.get3 = BSaddle1 ∨ t.get3 = BSaddle2 ∨ t.get3 = BLocalMax) :
    (copiesMade i j t s = 0 ↔
      (t.get1 = BSaddle1 ∧ t.get3 = BSaddle1) ∨ (t.get1 = BSaddle2 ∧ t.get3 = BSaddle2)) ∧
    (copiesMade i j t s = 2 ↔ (t.get1 = BLocalMax ∧ t.get3 = BLocalMin)) ∧
    (copiesMade i j t s = 2 →
      grownBy s.data_max (partitionStep i j t s).data_max i = 1 ∧
      grownBy s.data_min (partitionStep i j t s).data_min i = 1 ∧
      grownBy s.data_sad (partitionStep i j t s).data_sad i = 0) ∧
    (¬ ((t.get1 = BSaddle1 ∧ t.get3 = BSaddle1) ∨ (t.get1 = BSaddle2 ∧ t.get3 = BSaddle2)) →
      ¬ (t.get1 = BLocalMax ∧ t.get3 = BLocalMin) → copiesMade i j t s = 1) ∧
    copiesMade i j t s ≠ 3 ∧
    (grownBy s.data_sad (partitionStep i j t s).data_sad i ≠ 0 →
      grownBy s.data_min (partitionStep i j t s).data_min i = 0 ∧
      grownBy s.data_max (partitionStep i j t s).data_max i = 0) := by
  obtain ⟨e1, e2, e3⟩ := grownBy_partitionStep i j t s hmin hsad hmax
  unfold copiesMade
  rw [e1, e2, e3]
  obtain ⟨a0, nt1, a2, nt2, dt, a5, a6, a7, a8, a9, a10, a11, a12, a13⟩ := t
  simp only at hpos h1 h3
  rcases h1 with h1 | h1 | h1 | h1 <;> rcases h3 with h3 | h3 | h3 | h3 <;>
    subst h1 <;> subst h3 <;> simp [toMin, toSad, toMax, hpos]

end copies_lemmas

/-! ## The bookkeeping loop (lines 325-341) -/

section bookkeeping

theorem int_to_unsigned_of_nonneg (v : Int) (h0 : 0 ≤ v) (h1 : v < 2 ^ 31) :
    int_to_unsigned v = v.toNat := by
  unfold int_to_unsigned
  rw [Int.emod_eq_of_lt h0 (by omega)]

theorem foldr_max_eq (l : List Int) (a : Nat) :
    l.foldr (fun v m => max (v.toNat + 1) m) a = max (sizeBound l) a := by
  induction l with
  | nil => simp [sizeBound]
  | cons v l ih =>
    simp only [List.foldr_cons, sizeBound] at ih ⊢
    rw [ih]
    omega

theorem sizeBound_append_singleton (l : List Int) (v : Int) :
    sizeBound (l ++ [v]) = max (sizeBound l) (v.toNat + 1) := by
  unfold sizeBound
  rw [List.foldr_append, foldr_max_eq]
  simp [sizeBound]

theorem lt_sizeBound_of_mem (l : List Int) (v : Int) (hv : v ∈ l) :
    v.toNat < sizeBound l := by
  induction l with
  | nil => cases hv
  | cons w l ih =>
    simp only [sizeBound, List.foldr_cons]
    rcases List.mem_cons.mp hv with h | h
    · subst h
      omega
    · have := ih h
      simp only [sizeBound] at this
      omega

theorem count_eq_zero_of_sizeBound_le (l : List Int) (c : Nat) (h : sizeBound l ≤ c) :
    l.count (c : Int) = 0 := by
  rw [List.count_eq_zero]
  intro hc
  have := lt_sizeBound_of_mem l (c : Int) hc
  simp only [Int.toNat_ofNat] at this
  omega

theorem getElem?_resize {α : Type} (v : List α) (n k : Nat) (d : α) :
    (resize v n d)[k]? = if k < n then some (v[k]?.getD d) else none := by
  unfold resize
  by_cases hk : k < n
  · rw [if_pos hk]
    by_cases hv : k < v.length
    · rw [List.getElem?_append_left (by simp; omega), List.getElem?_take, if_pos hk,
        List.getElem?_eq_getElem hv]
      rfl
    · have hlen : (v.take n).length = v.length := by simp; omega
      rw [List.getElem?_append_right (by omega), hlen, List.getElem?_replicate,
        if_pos (by omega), List.getElem?_eq_none (by omega)]
      rfl
  · rw [if_neg hk]
    apply List.getElem?_eq_none
    simp only [List.length_append, List.length_take, List.length_replicate]
    omega

theorem getElem?_map_range {α : Type} (f : Nat → α) (L k : Nat) :
    ((List.range L).map f)[k]? = if k < L then some (f k) else none := by
  by_cases hk : k < L
  · rw [if_pos hk, List.getElem?_map, List.getElem?_range hk]
    rfl
  · rw [if_neg hk]
    apply List.getElem?_eq_none
    simp only [List.length_map, List.length_range]
    omega

theorem count_append_singleton (l : List Int) (v a : Int) :
    (l ++ [v]).count a = l.count a + (if v = a then 1 else 0) := by
  rw [List.count_append, List.count_singleton]
  simp

/-- The table of sizes after an id that is not below the bound of the ids read before:
the branch of lines 331-333. -/
theorem sizes_after_new_id (l : List Int) (v : Int) (h0 : 0 ≤ v)
    (hA : sizeBound l < v.toNat + 1) :
    (resize ((List.range (sizeBound l)).map
        (fun c : Nat => ((l.count (c : Int) : Nat) : Int))) (v.toNat + 1) 0).set v.toNat 1
      = (List.range (sizeBound (l ++ [v]))).map
        (fun c : Nat => (((l ++ [v]).count (c : Int) : Nat) : Int)) := by
  apply List.ext_getElem?
  intro k
  have hbound : sizeBound (l ++ [v]) = v.toNat + 1 := by
    rw [sizeBound_append_singleton]
    omega
  have hlen : (resize ((List.range (sizeBound l)).map
      (fun c : Nat => ((l.count (c : Int) : Nat) : Int))) (v.toNat + 1) 0).length = v.toNat + 1 := by
    simp only [resize, List.length_append, List.length_take, List.length_map,
      List.length_range, List.length_replicate]
    omega
  rw [List.getElem?_set, hlen, getElem?_resize, getElem?_map_range, getElem?_map_range,
    hbound]
  by_cases hkc : v.toNat = k
  · subst hkc
    have hz : l.count v = 0 := by
      have := count_eq_zero_of_sizeBound_le l v.toNat (by omega)
      rwa [Int.toNat_of_nonneg h0] at this
    simp only [if_true, Nat.lt_succ_self, count_append_singleton, Int.toNat_of_nonneg h0, hz]
    rfl
  · rw [if_neg hkc]
    by_cases hk : k < v.toNat + 1
    · have hne : ¬ v = (k : Int) := by omega
      rw [if_pos hk, if_pos hk, count_append_singleton, if_neg hne, Nat.add_zero]
      by_cases hks : k < sizeBound l
      · rw [if_pos hks]
        rfl
      · rw [if_neg hks, count_eq_zero_of_sizeBound_le l k (by omega)]
        rfl
    · rw [if_neg hk, if_neg hk]

/-- The table of sizes after an id below the bound of the ids read before: the branch
of lines 335-336. -/
theorem sizes_after_old_id (l : List Int) (v : Int) (h0 : 0 ≤ v)
    (hB : v.toNat + 1 ≤ sizeBound l) :
    ((List.range (sizeBound l)).map
        (fun c : Nat => ((l.count (c : Int) : Nat) : Int)))[v.toNat]?
      = some ((l.count v : Nat) : Int) ∧
    ((List.range (sizeBound l)).map
        (fun c : Nat => ((l.count (c : Int) : Nat) : Int))).set v.toNat ((l.count v : Nat) + 1)
      = (List.range (sizeBound (l ++ [v]))).map
        (fun c : Nat => (((l ++ [v]).count (c : Int) : Nat) : Int)) := by
  have hbound : sizeBound (l ++ [v]) = sizeBound l := by
    rw [sizeBound_append_singleton]
    omega
  constructor
  · rw [getElem?_map_range, if_pos (by omega), Int.toNat_of_nonneg h0]
  · apply List.ext_getElem?
    intro k
    rw [List.getElem?_set, getElem?_map_range, getElem?_map_range, hbound,
      List.length_map, List.length_range]
    by_cases hkc : v.toNat = k
    · subst hkc
      rw [if_pos rfl, if_pos (by omega), if_pos (by omega), count_append_singleton,
        Int.toNat_of_nonneg h0, if_pos rfl]
      push_cast
      rfl
    · have hne : ¬ v = (k : Int) := by omega
      rw [if_neg hkc, count_append_singleton, if_neg hne, Nat.add_zero]

/-- The table of ranks after one more round. -/
theorem idxInCluster_after_step (inv_clustering : List Int) (N n : Nat) (v : Int)
    (hv : inv_clustering[n]? = some v) :
    (idxInClusterAfter inv_clustering N n).set n
        (((inv_clustering.take n).count v : Nat) : Int)
      = idxInClusterAfter inv_clustering N (n + 1) := by
  apply List.ext_getElem?
  intro k
  unfold idxInClusterAfter
  rw [List.getElem?_set, getElem?_map_range, getElem?_map_range, List.length_map,
    List.length_range]
  by_cases hnk : n = k
  · subst hnk
    rw [if_pos rfl]
    by_cases hN : n < N
    · rw [if_pos hN, if_pos hN, if_pos (Nat.lt_succ_self n), hv]
      rfl
    · rw [if_neg hN, if_neg hN]
  · rw [if_neg hnk]
    by_cases hN : k < N
    · rw [if_pos hN, if_pos hN]
      by_cases hk : k < n
      · rw [if_pos hk, if_pos (by omega)]
      · rw [if_neg hk, if_neg (by omega)]
    · rw [if_neg hN, if_neg hN]

/-- One round of the bookkeeping loop on the closed form, for an id that is a
non-negative `int`. -/
theorem reconstructStep_eq (inv_clustering : List Int) (N n : Nat) (v : Int)
    (hv : inv_clustering[n]? = some v) (h0 : 0 ≤ v) (h1 : v < 2 ^ 31) :
    reconstructStep inv_clustering n
        (clusterSizesAfter inv_clustering n, idxInClusterAfter inv_clustering N n)
      = some (clusterSizesAfter inv_clustering (n + 1),
          idxInClusterAfter inv_clustering N (n + 1)) := by
  have htake : inv_clustering.take (n + 1) = inv_clustering.take n ++ [v] := by
    rw [List.take_succ, hv]
    rfl
  have hc : int_to_unsigned v = v.toNat := int_to_unsigned_of_nonneg v h0 h1
  have hmod : (v.toNat + 1) % 2 ^ 32 = v.toNat + 1 := Nat.mod_eq_of_lt (by omega)
  have hlen : (clusterSizesAfter inv_clustering n).length
      = sizeBound (inv_clustering.take n) := by
    simp [clusterSizesAfter]
  unfold reconstructStep
  simp only [hv, hc, hmod, hlen]
  by_cases hA : sizeBound (inv_clustering.take n) < v.toNat + 1
  · have hz : (inv_clustering.take n).count v = 0 := by
      have := count_eq_zero_of_sizeBound_le (inv_clustering.take n) v.toNat (by omega)
      rwa [Int.toNat_of_nonneg h0] at this
    have hidx := idxInCluster_after_step inv_clustering N n v hv
    rw [hz] at hidx
    have hcs := sizes_after_new_id (inv_clustering.take n) v h0 hA
    rw [← htake] at hcs
    rw [if_pos hA]
    simp only [clusterSizesAfter] at hcs ⊢
    rw [hcs]
    exact congrArg (fun x => some (_, x)) hidx
  · obtain ⟨hget, hcs⟩ := sizes_after_old_id (inv_clustering.take n) v h0 (by omega)
    rw [← htake] at hcs
    have hidx := idxInCluster_after_step inv_clustering N n v hv
    rw [if_neg hA]
    simp only [clusterSizesAfter] at hget hcs ⊢
    rw [hget]
    simp only
    rw [hcs]
    have hk : (((inv_clustering.take n).count v : Nat) : Int) + 1 - 1
        = (((inv_clustering.take n).count v : Nat) : Int) := by omega
    rw [hk]
    exact congrArg (fun x => some (_, x)) hidx

/-- The bookkeeping loop in closed form, on ids that are non-negative `int`s: it returns
after every round it can read an id for. -/
theorem reconstructLoop_eq (inv_clustering : List Int) (N : Nat)
    (hvals : ∀ v ∈ inv_clustering, 0 ≤ v ∧ v < 2 ^ 31) :
    ∀ n : Nat, n ≤ inv_clustering.length →
      reconstructLoop inv_clustering n ([], List.replicate N 0)
        = some (clusterSizesAfter inv_clustering n, idxInClusterAfter inv_clustering N n) := by
  intro n
  induction n with
  | zero =>
    intro _
    have h1 : clusterSizesAfter inv_clustering 0 = [] := by
      simp [clusterSizesAfter, sizeBound]
    have h2 : idxInClusterAfter inv_clustering N 0 = List.replicate N 0 := by
      apply List.ext_getElem?
      intro k
      unfold idxInClusterAfter
      rw [getElem?_map_range, List.getElem?_replicate]
      simp
    rw [reconstructLoop, h1, h2]
  | succ n ih =>
    intro hn
    have hlt : n < inv_clustering.length := by omega
    have hv : inv_clustering[n]? = some inv_clustering[n] := List.getElem?_eq_getElem hlt
    obtain ⟨h0, h1⟩ := hvals _ (List.getElem_mem hlt)
    rw [reconstructLoop, ih (by omega)]
    exact reconstructStep_eq inv_clustering N n _ hv h0 h1

theorem sum_indicator (v : Int) (h0 : 0 ≤ v) : ∀ L : Nat,
    ((List.range L).map (fun c : Nat => if v = (c : Int) then (1 : Int) else 0)).sum
      = if v.toNat < L then 1 else 0 := by
  intro L
  induction L with
  | zero => simp
  | succ L ih =>
    rw [List.range_succ, List.map_append, List.sum_append, ih]
    simp only [List.map_cons, List.map_nil, List.sum_cons, List.sum_nil, add_zero]
    by_cases h1 : v.toNat < L
    · have hne : ¬ v = (L : Int) := by omega
      rw [if_pos h1, if_neg hne, if_pos (by omega)]
      rfl
    · by_cases h2 : v = (L : Int)
      · rw [if_neg h1, if_pos h2, if_pos (by omega)]
        rfl
      · rw [if_neg h1, if_neg h2, if_neg (by omega)]
        rfl

/-- The sizes of all the ids below a bound add up to the number of inputs, when every
id is below the bound. -/
theorem sum_counts (L : Nat) : ∀ l : List Int, (∀ v ∈ l, 0 ≤ v ∧ v.toNat < L) →
    ((List.range L).map (fun c : Nat => ((l.count (c : Int) : Nat) : Int))).sum
      = (l.length : Int) := by
  intro l
  induction l with
  | nil =>
    intro _
    simp
  | cons v l ih =>
    intro h
    obtain ⟨h0, hL⟩ := h v (List.mem_cons_self _ _)
    have hfun : (fun c : Nat => (((v :: l).count (c : Int) : Nat) : Int))
        = (fun c : Nat => ((l.count (c : Int) : Nat) : Int)
            + (if v = (c : Int) then (1 : Int) else 0)) := by
      funext c
      rw [List.count_cons]
      by_cases hc : v = (c : Int)
      · simp [hc]
      · simp [hc]
    rw [hfun, List.sum_map_add, ih (fun w hw => h w (List.mem_cons_of_mem _ hw)),
      sum_indicator v h0 L, if_pos hL]
    simp

theorem sizeBound_attained : ∀ l : List Int, l ≠ [] →
    ∃ v ∈ l, sizeBound l = v.toNat + 1 := by
  intro l
  induction l with
  | nil => intro h; exact absurd rfl h
  | cons w l ih =>
    intro _
    by_cases hl : l = []
    · subst hl
      exact ⟨w, List.mem_cons_self _ _, by simp [sizeBound]⟩
    · obtain ⟨v, hv, hb⟩ := ih hl
      by_cases hcmp : sizeBound l ≤ w.toNat + 1
      · refine ⟨w, List.mem_cons_self _ _, ?_⟩
        simp only [sizeBound, List.foldr_cons] at hcmp ⊢
        omega
      · refine ⟨v, List.mem_cons_of_mem _ hv, ?_⟩
        simp only [sizeBound, List.foldr_cons] at hcmp hb ⊢
        omega

theorem count_take_lt (l : List Int) (j : Nat) (v : Int) (hv : l[j]? = some v) :
    (l.take j).count v < l.count v := by
  obtain ⟨hlt, hget⟩ := List.getElem?_eq_some_iff.mp hv
  have hsplit : l.count v = (l.take j ++ l.drop j).count v := by
    rw [List.take_append_drop]
  have hd : l.drop j = l[j] :: l.drop (j + 1) := List.drop_eq_getElem_cons hlt
  rw [hsplit, List.count_append, hd, hget, List.count_cons_self]
  omega

theorem count_take_lt_take (l : List Int) (j1 j2 : Nat) (v : Int) (h12 : j1 < j2)
    (hv : l[j1]? = some v) : (l.take j1).count v < (l.take j2).count v := by
  have h := count_take_lt (l.take j2) j1 v (by rw [List.getElem?_take, if_pos h12]; exact hv)
  rw [List.take_take, Nat.min_eq_left (Nat.le_of_lt h12)] at h
  exact h

/-- C11: for an assignment vector of length N whose values are non-negative `int`s, the
bookkeeping loop returns, and after it `cluster_size` has length 0 if N = 0 and one more
than the largest id otherwise (every id is below the length, and the length is one more
than some id), entry `c` holds the number of inputs `j` with `inv_clustering[j] = c` for
every index `c`, so that every size is ≥ 0 and an id no input carries has size 0, and
the sizes add up to N. -/
theorem C11_cluster_sizes (inv_clustering : List Int) (N : Nat)
    (hN : inv_clustering.length = N)
    (hvals : ∀ v ∈ inv_clustering, 0 ≤ v ∧ v < 2 ^ 31) :
    ∃ cluster_size idxInCluster,
      reconstructLoop inv_clustering N ([], List.replicate N 0)
        = some (cluster_size, idxInCluster) ∧
      (N = 0 → cluster_size.length = 0) ∧
      (∀ v ∈ inv_clustering, v < (cluster_size.length : Int)) ∧
      (N ≠ 0 → ∃ v ∈ inv_clustering, (cluster_size.length : Int) = v + 1) ∧
      (∀ c : Nat, c < cluster_size.length →
        cluster_size[c]? = some ((inv_clustering.count (c : Int) : Nat) : Int)) ∧
      (∀ k ∈ cluster_size, 0 ≤ k) ∧
      (∀ c : Nat, c < cluster_size.length → (c : Int) ∉ inv_clustering →
        cluster_size[c]? = some 0) ∧
      cluster_size.sum = (N : Int) := by
  subst hN
  have hloop := reconstructLoop_eq inv_clustering inv_clustering.length hvals
    inv_clustering.length (Nat.le_refl _)
  have hlen : (clusterSizesAfter inv_clustering inv_clustering.length).length
      = sizeBound inv_clustering := by
    simp [clusterSizesAfter]
  have hentry : ∀ c : Nat, c < sizeBound inv_clustering →
      (clusterSizesAfter inv_clustering inv_clustering.length)[c]?
        = some ((inv_clustering.count (c : Int) : Nat) : Int) := by
    intro c hc
    unfold clusterSizesAfter
    rw [List.take_length, getElem?_map_range, if_pos hc]
  refine ⟨_, _, hloop, ?_, ?_, ?_, ?_, ?_, ?_, ?_⟩
  · intro h0
    rw [hlen, List.length_eq_zero.mp h0]
    rfl
  · intro v hv
    rw [hlen]
    have h1 := lt_sizeBound_of_mem inv_clustering v hv
    have h2 := (hvals v hv).1
    omega
  · intro hne
    obtain ⟨v, hv, hb⟩ := sizeBound_attained inv_clustering
      (fun h => hne (by rw [h]; rfl))
    refine ⟨v, hv, ?_⟩
    rw [hlen, hb]
    have h2 := (hvals v hv).1
    omega
  · intro c hc
    exact hentry c (by rwa [hlen] at hc)
  · intro k hk
    simp only [clusterSizesAfter, List.mem_map] at hk
    obtain ⟨c, _, rfl⟩ := hk
    exact Int.natCast_nonneg _
  · intro c hc hnot
    rw [hentry c (by rwa [hlen] at hc), List.count_eq_zero.mpr hnot]
    rfl
  · unfold clusterSizesAfter
    rw [List.take_length]
    exact sum_counts (sizeBound inv_clustering) inv_clustering
      (fun v hv => ⟨(hvals v hv).1, lt_sizeBound_of_mem inv_clustering v hv⟩)

/-- C11 at a concrete vector: five inputs with the ids 2, 0, 2, 0, 2 give the sizes
2, 0, 3, the skipped id 1 with size 0. -/
theorem C11_cluster_sizes_witness :
    (∃ cluster_size idxInCluster,
      reconstructLoop [2, 0, 2, 0, 2] 5 ([], List.replicate 5 0)
        = some (cluster_size, idxInCluster) ∧
      (5 = 0 → cluster_size.length = 0) ∧
      (∀ v ∈ ([2, 0, 2, 0, 2] : List Int), v < (cluster_size.length : Int)) ∧
      (5 ≠ 0 → ∃ v ∈ ([2, 0, 2, 0, 2] : List Int), (cluster_size.length : Int) = v + 1) ∧
      (∀ c : Nat, c < cluster_size.length →
        cluster_size[c]? = some ((([2, 0, 2, 0, 2] : List Int).count (c : Int) : Nat) : Int)) ∧
      (∀ k ∈ cluster_size, 0 ≤ k) ∧
      (∀ c : Nat, c < cluster_size.length → (c : Int) ∉ ([2, 0, 2, 0, 2] : List Int) →
        cluster_size[c]? = some 0) ∧
      cluster_size.sum = ((5 : Nat) : Int)) ∧
    reconstructLoop [2, 0, 2, 0, 2] 5 ([], List.replicate 5 0)
      = some ([2, 0, 3], [0, 0, 1, 1, 2]) :=
  ⟨C11_cluster_sizes [2, 0, 2, 0, 2] 5 (by decide) (by decide), by decide⟩

/-- C12: for an assignment vector of length N whose values are non-negative `int`s, the
bookkeeping loop returns, and after it `idxInCluster[j]` is, for every input `j`, the
number of earlier inputs with the id of `j`; it is not negative and below the size
`cluster_size[inv_clustering[j]]`, and two inputs with the same id and the same
`idxInCluster` are the same input. -/
theorem C12_idxInCluster (inv_clustering : List Int) (N : Nat)
    (hN : inv_clustering.length = N)
    (hvals : ∀ v ∈ inv_clustering, 0 ≤ v ∧ v < 2 ^ 31) :
    ∃ cluster_size idxInCluster,
      reconstructLoop inv_clustering N ([], List.replicate N 0)
        = some (cluster_size, idxInCluster) ∧
      idxInCluster.length = N ∧
      (∀ (j : Nat) (v : Int), inv_clustering[j]? = some v →
        idxInCluster[j]? = some (((inv_clustering.take j).count v : Nat) : Int)) ∧
      (∀ (j : Nat) (v : Int), inv_clustering[j]? = some v →
        ∃ k sz : Int, idxInCluster[j]? = some k ∧ cluster_size[v.toNat]? = some sz ∧
          0 ≤ k ∧ k < sz) ∧
      (∀ (j1 j2 : Nat) (v k : Int),
        inv_clustering[j1]? = some v → inv_clustering[j2]? = some v →
        idxInCluster[j1]? = some k → idxInCluster[j2]? = some k → j1 = j2) := by
  subst hN
  have hloop := reconstructLoop_eq inv_clustering inv_clustering.length hvals
    inv_clustering.length (Nat.le_refl _)
  have hidx : ∀ (j : Nat) (v : Int), inv_clustering[j]? = some v →
      (idxInClusterAfter inv_clustering inv_clustering.length inv_clustering.length)[j]?
        = some (((inv_clustering.take j).count v : Nat) : Int) := by
    intro j v hv
    have hlt := (List.getElem?_eq_some_iff.mp hv).1
    unfold idxInClusterAfter
    rw [getElem?_map_range, if_pos hlt, if_pos hlt, hv]
    rfl
  refine ⟨_, _, hloop, ?_, hidx, ?_, ?_⟩
  · simp [idxInClusterAfter]
  · intro j v hv
    have hmem : v ∈ inv_clustering := List.getElem?_mem hv
    have h0 := (hvals v hmem).1
    refine ⟨_, ((inv_clustering.count v : Nat) : Int), hidx j v hv, ?_,
      Int.natCast_nonneg _, ?_⟩
    · unfold clusterSizesAfter
      rw [List.take_length, getElem?_map_range,
        if_pos (lt_sizeBound_of_mem inv_clustering v hmem), Int.toNat_of_nonneg h0]
    · exact_mod_cast count_take_lt inv_clustering j v hv
  · intro j1 j2 v k h1 h2 hk1 hk2
    rw [hidx j1 v h1] at hk1
    rw [hidx j2 v h2] at hk2
    have heq : (inv_clustering.take j1).count v = (inv_clustering.take j2).count v := by
      have := hk1.trans hk2.symm
      exact_mod_cast Option.some.inj this
    rcases Nat.lt_trichotomy j1 j2 with hlt | heq12 | hgt
    · have := count_take_lt_take inv_clustering j1 j2 v hlt h1
      omega
    · exact heq12
    · have := count_take_lt_take inv_clustering j2 j1 v hgt h2
      omega

/-- C12 at a concrete vector: five inputs with the ids 2, 0, 2, 0, 2 get the ranks
0, 0, 1, 1, 2. -/
theorem C12_idxInCluster_witness :
    (∃ cluster_size idxInCluster,
      reconstructLoop [2, 0, 2, 0, 2] 5 ([], List.replicate 5 0)
        = some (cluster_size, idxInCluster) ∧
      idxInCluster.length = 5 ∧
      (∀ (j : Nat) (v : Int), ([2, 0, 2, 0, 2] : List Int)[j]? = some v →
        idxInCluster[j]? = some (((([2, 0, 2, 0, 2] : List Int).take j).count v : Nat) : Int)) ∧
      (∀ (j : Nat) (v : Int), ([2, 0, 2, 0, 2] : List Int)[j]? = some v →
        ∃ k sz : Int, idxInCluster[j]? = some k ∧ cluster_size[v.toNat]? = some sz ∧
          0 ≤ k ∧ k < sz) ∧
      (∀ (j1 j2 : Nat) (v k : Int),
        ([2, 0, 2, 0, 2] : List Int)[j1]? = some v →
        ([2, 0, 2, 0, 2] : List Int)[j2]? = some v →
        idxInCluster[j1]? = some k → idxInCluster[j2]? = some k → j1 = j2)) ∧
    (reconstructLoop [2, 0, 2, 0, 2] 5 ([], List.replicate 5 0)).map (fun st => st.2)
      = some [0, 0, 1, 1, 2] :=
  ⟨C12_idxInCluster [2, 0, 2, 0, 2] 5 (by decide) (by decide), by decide⟩

end bookkeeping

section bookkeeping_in_execute

variable {dataType float double BidderDiagram GoodDiagram matchingTuple : Type}
  [Zero dataType] [LT dataType]
  [DecidableRel ((fun a b => a < b) : dataType → dataType → Prop)]

/-- In a call of `execute` that returns, `cluster_size` and `idxInCluster` are what the
bookkeeping loop computes over `numberOfInputs_` rounds from the vector the engine has
returned. -/
theorem execute_bookkeeping
    (self : PersistenceDiagramDistanceMatrix double BidderDiagram GoodDiagram)
    (KMeans_execute : PDDistMatSettings dataType float double →
      Option (PDDistMatOutput double))
    (intermediateDiagrams : List (List (diagramTuple dataType float)))
    (all_matchings : List (List (List matchingTuple)))
    (r : ExecuteResult dataType float double BidderDiagram GoodDiagram matchingTuple)
    (hr : execute self KMeans_execute intermediateDiagrams all_matchings = some r) :
    reconstructLoop r.inv_clustering self.numberOfInputs_.toNat
        ([], List.replicate self.numberOfInputs_.toNat 0)
      = some (r.cluster_size, r.idxInCluster) := by
  unfold execute at hr
  cases hp : partitionDiagrams self.numberOfInputs_ intermediateDiagrams with
  | none => simp [hp] at hr
  | some p =>
    simp only [hp] at hr
    cases he : KMeans_execute (engineSettings self p) with
    | none => simp [he] at hr
    | some out =>
      simp only [he] at hr
      cases hl : reconstructLoop out.inv_clustering self.numberOfInputs_.toNat
          ([], List.replicate self.numberOfInputs_.toNat 0) with
      | none => simp [hl] at hr
      | some st =>
        obtain ⟨cs, ic⟩ := st
        simp only [hl] at hr
        by_cases hk : self.n_clusters_ < 0
        · simp [hk] at hr
        · simp only [hk, if_false, Option.some.injEq] at hr
          rw [← hr]
          exact hl

end bookkeeping_in_execute

/-! ## The sub-diagrams of an input, class of pairs by class of pairs -/

section classes

variable {dataType float : Type} [Zero dataType] [LT dataType]
  [DecidableRel ((fun a b => a < b) : dataType → dataType → Prop)]

/-- The entries of class `q` of a sub-diagram built with the test `p`, when `p` agrees
with `r` on the class. -/
theorem filter_filter_of_agree {α : Type} (p q r : α → Bool) (raw : List α)
    (h : ∀ t, q t = true → p t = r t) :
    (raw.filter p).filter q = raw.filter (fun t => q t && r t) := by
  rw [List.filter_filter]
  apply List.filter_congr
  intro t _
  cases hq : q t with
  | false => rfl
  | true => rw [h t hq]

theorem filter_and_true {α : Type} (q : α → Bool) (raw : List α) :
    raw.filter (fun t => q t && true) = raw.filter q := by
  apply List.filter_congr
  intro t _
  simp

theorem filter_and_false {α : Type} (q : α → Bool) (raw : List α) :
    raw.filter (fun t => q t && false) = [] := by
  rw [List.filter_eq_nil_iff]
  intro t _
  simp

/-- What the partitioning loop returns, input by input: the three sub-diagrams of input
`i` are the raw diagram `i` filtered by the three tests of the loop body. -/
theorem partitionDiagrams_entries (numberOfInputs_ : Int)
    (intermediateDiagrams : List (List (diagramTuple dataType float)))
    (h0 : 0 ≤ numberOfInputs_)
    (hlen : numberOfInputs_.toNat ≤ intermediateDiagrams.length) :
    ∃ p, partitionDiagrams numberOfInputs_ intermediateDiagrams = some p ∧
      ∀ i : Nat, i < numberOfInputs_.toNat →
        ∃ raw, intermediateDiagrams[i]? = some raw ∧
          p.data_min[i]? = some (raw.filter toMin) ∧
          p.data_sad[i]? = some (raw.filter toSad) ∧
          p.data_max[i]? = some (raw.filter toMax) := by
  refine ⟨_, (partitionDiagrams_eq_some_iff _ _ _).mpr ⟨h0, hlen, rfl⟩, ?_⟩
  intro i hi
  have hlt : i < intermediateDiagrams.length := by omega
  have hraw : intermediateDiagrams[i]? = some intermediateDiagrams[i] :=
    List.getElem?_eq_getElem hlt
  obtain ⟨e1, e2, e3, _, _, _⟩ :=
    partitionsAfter_getElem? numberOfInputs_.toNat intermediateDiagrams i _ hi hraw
  exact ⟨_, hraw, e1, e2, e3⟩

theorem tests_on_global_pair (t : diagramTuple dataType float) :
    (isGlobalPair t = true → toMax t = true) ∧ (isGlobalPair t = true → toSad t = false) ∧
    (isPair BLocalMin BLocalMax t = true → toMin t = false) := by
  obtain ⟨a0, nt1, a2, nt2, dt, a5, a6, a7, a8, a9, a10, a11, a12, a13⟩ := t
  by_cases hpos : 0 < dt <;> cases nt1 <;> cases nt2 <;>
    simp [isGlobalPair, isPair, toMax, toSad, toMin, hpos]

theorem tests_on_other_pair (t : diagramTuple dataType float) (h : isOtherPair t = true) :
    toMax t = hasType BLocalMax t ∧ toMin t = hasType BLocalMin t ∧
    toSad t = isSaddleSaddle t := by
  obtain ⟨a0, nt1, a2, nt2, dt, a5, a6, a7, a8, a9, a10, a11, a12, a13⟩ := t
  revert h
  by_cases hpos : 0 < dt <;> cases nt1 <;> cases nt2 <;>
    simp [isOtherPair, hasType, isSaddleSaddle, toMax, toSad, toMin, hpos]

/-- C1, amended: if the input count is not negative and every input is there, the
partitioning loop of `execute` returns, and for every input `i` the pairs of the "max"
sub-diagram of `i` that have positive persistence and the types LocalMin and LocalMax,
in either order, are exactly those pairs of raw diagram `i`, each once and in the order
of the raw diagram; the "sad" sub-diagram of `i` holds none of them; and the "min"
sub-diagram of `i` holds no pair of positive persistence with first type LocalMin and
second type LocalMax. -/
theorem C1_global_pairs (numberOfInputs_ : Int)
    (intermediateDiagrams : List (List (diagramTuple dataType float)))
    (h0 : 0 ≤ numberOfInputs_)
    (hlen : numberOfInputs_.toNat ≤ intermediateDiagrams.length) :
    ∃ p, partitionDiagrams numberOfInputs_ intermediateDiagrams = some p ∧
      ∀ i : Nat, i < numberOfInputs_.toNat →
        ∃ raw dmin dsad dmax,
          intermediateDiagrams[i]? = some raw ∧
          p.data_min[i]? = some dmin ∧ p.data_sad[i]? = some dsad ∧
          p.data_max[i]? = some dmax ∧
          dmax.filter isGlobalPair = raw.filter isGlobalPair ∧
          dsad.filter isGlobalPair = [] ∧
          dmin.filter (isPair BLocalMin BLocalMax) = [] := by
  obtain ⟨p, hp, hall⟩ := partitionDiagrams_entries numberOfInputs_ intermediateDiagrams h0 hlen
  refine ⟨p, hp, ?_⟩
  intro i hi
  obtain ⟨raw, hraw, e1, e2, e3⟩ := hall i hi
  refine ⟨raw, _, _, _, hraw, e1, e2, e3, ?_, ?_, ?_⟩
  · rw [filter_filter_of_agree toMax isGlobalPair (fun _ => true) raw
      (fun t ht => (tests_on_global_pair t).1 ht), filter_and_true]
  · rw [filter_filter_of_agree toSad isGlobalPair (fun _ => false) raw
      (fun t ht => (tests_on_global_pair t).2.1 ht), filter_and_false]
  · rw [filter_filter_of_agree toMin (isPair BLocalMin BLocalMax) (fun _ => false) raw
      (fun t ht => (tests_on_global_pair t).2.2 ht), filter_and_false]

/-- C1 at a concrete input: one diagram with a (LocalMin, LocalMax) pair, a
(LocalMax, LocalMin) pair and a (Saddle2, LocalMax) pair; both global pairs are in
"max", and only the reversed one is in "min". -/
theorem C1_global_pairs_witness :
    (∃ p, partitionDiagrams 1
        [[mkPair BLocalMin BLocalMax 5, mkPair BLocalMax BLocalMin 4,
          mkPair BSaddle2 BLocalMax 3]] = some p ∧
      ∀ i : Nat, i < (1 : Int).toNat →
        ∃ raw dmin dsad dmax,
          [[mkPair BLocalMin BLocalMax 5, mkPair BLocalMax BLocalMin 4,
            mkPair BSaddle2 BLocalMax 3]][i]? = some raw ∧
          p.data_min[i]? = some dmin ∧ p.data_sad[i]? = some dsad ∧
          p.data_max[i]? = some dmax ∧
          dmax.filter isGlobalPair = raw.filter isGlobalPair ∧
          dsad.filter isGlobalPair = [] ∧
          dmin.filter (isPair BLocalMin BLocalMax) = []) ∧
    (partitionDiagrams 1
        [[mkPair BLocalMin BLocalMax 5, mkPair BLocalMax BLocalMin 4,
          mkPair BSaddle2 BLocalMax 3]]).map (fun p => (p.data_min, p.data_sad, p.data_max))
      = some ([[mkPair BLocalMax BLocalMin 4]], [[]],
          [[mkPair BLocalMin BLocalMax 5, mkPair BLocalMax BLocalMin 4,
            mkPair BSaddle2 BLocalMax 3]]) :=
  ⟨C1_global_pairs 1
    [[mkPair BLocalMin BLocalMax 5, mkPair BLocalMax BLocalMin 4,
      mkPair BSaddle2 BLocalMax 3]] (by decide) (by decide), by decide⟩

/-- C3: if the input count is not negative and every input is there, the partitioning
loop of `execute` returns, and for every input `i`, among the pairs of positive
persistence that are not LocalMin-LocalMax pairs (in either order): the "max"
sub-diagram of `i` holds exactly those of raw diagram `i` with a type LocalMax, the
"min" sub-diagram exactly those with a type LocalMin, the "sad" sub-diagram exactly
those with the types Saddle1 and Saddle2 in either order, each of them once and in the
order of the raw diagram. -/
theorem C3_other_pairs (numberOfInputs_ : Int)
    (intermediateDiagrams : List (List (diagramTuple dataType float)))
    (h0 : 0 ≤ numberOfInputs_)
    (hlen : numberOfInputs_.toNat ≤ intermediateDiagrams.length) :
    ∃ p, partitionDiagrams numberOfInputs_ intermediateDiagrams = some p ∧
      ∀ i : Nat, i < numberOfInputs_.toNat →
        ∃ raw dmin dsad dmax,
          intermediateDiagrams[i]? = some raw ∧
          p.data_min[i]? = some dmin ∧ p.data_sad[i]? = some dsad ∧
          p.data_max[i]? = some dmax ∧
          dmax.filter isOtherPair
            = raw.filter (fun t => isOtherPair t && hasType BLocalMax t) ∧
          dmin.filter isOtherPair
            = raw.filter (fun t => isOtherPair t && hasType BLocalMin t) ∧
          dsad.filter isOtherPair
            = raw.filter (fun t => isOtherPair t && isSaddleSaddle t) := by
  obtain ⟨p, hp, hall⟩ := partitionDiagrams_entries numberOfInputs_ intermediateDiagrams h0 hlen
  refine ⟨p, hp, ?_⟩
  intro i hi
  obtain ⟨raw, hraw, e1, e2, e3⟩ := hall i hi
  exact ⟨raw, _, _, _, hraw, e1, e2, e3,
    filter_filter_of_agree toMax isOtherPair (hasType BLocalMax) raw
      (fun t ht => (tests_on_other_pair t ht).1),
    filter_filter_of_agree toMin isOtherPair (hasType BLocalMin) raw
      (fun t ht => (tests_on_other_pair t ht).2.1),
    filter_filter_of_agree toSad isOtherPair isSaddleSaddle raw
      (fun t ht => (tests_on_other_pair t ht).2.2)⟩

/-- C3 at a concrete input: one diagram with a (Saddle2, LocalMax) pair, a
(Saddle1, Saddle2) pair, a (LocalMin, Saddle1) pair, a (Saddle1, Saddle1) pair and a
(Saddle2, Saddle1) pair of persistence 0; the first lands once in "max" only, the
second once in "sad" only, the third once in "min" only, the last two nowhere. -/
theorem C3_other_pairs_witness :
    (∃ p, partitionDiagrams 1
        [[mkPair BSaddle2 BLocalMax 5, mkPair BSaddle1 BSaddle2 4, mkPair BLocalMin BSaddle1 3,
          mkPair BSaddle1 BSaddle1 2, mkPair BSaddle2 BSaddle1 0]] = some p ∧
      ∀ i : Nat, i < (1 : Int).toNat →
        ∃ raw dmin dsad dmax,
          [[mkPair BSaddle2 BLocalMax 5, mkPair BSaddle1 BSaddle2 4,
            mkPair BLocalMin BSaddle1 3, mkPair BSaddle1 BSaddle1 2,
            mkPair BSaddle2 BSaddle1 0]][i]? = some raw ∧
          p.data_min[i]? = some dmin ∧ p.data_sad[i]? = some dsad ∧
          p.data_max[i]? = some dmax ∧
          dmax.filter isOtherPair
            = raw.filter (fun t => isOtherPair t && hasType BLocalMax t) ∧
          dmin.filter isOtherPair
            = raw.filter (fun t => isOtherPair t && hasType BLocalMin t) ∧
          dsad.filter isOtherPair
            = raw.filter (fun t => isOtherPair t && isSaddleSaddle t)) ∧
    (partitionDiagrams 1
        [[mkPair BSaddle2 BLocalMax 5, mkPair BSaddle1 BSaddle2 4, mkPair BLocalMin BSaddle1 3,
          mkPair BSaddle1 BSaddle1 2, mkPair BSaddle2 BSaddle1 0]]).map
        (fun p => (p.data_min, p.data_sad, p.data_max))
      = some ([[mkPair BLocalMin BSaddle1 3]], [[mkPair BSaddle1 BSaddle2 4]],
          [[mkPair BSaddle2 BLocalMax 5]]) :=
  ⟨C3_other_pairs 1
    [[mkPair BSaddle2 BLocalMax 5, mkPair BSaddle1 BSaddle2 4, mkPair BLocalMin BSaddle1 3,
      mkPair BSaddle1 BSaddle1 2, mkPair BSaddle2 BSaddle1 0]] (by decide) (by decide),
    by decide⟩

theorem tests_on_pair (a b : CriticalType) (t : diagramTuple dataType float)
    (h : isPair a b t = true) :
    toMax t = (decide (a = BLocalMin ∧ b = BLocalMax) ||
      decide (a = BLocalMax ∨ b = BLocalMax)) ∧
    toMin t = (!decide (a = BLocalMin ∧ b = BLocalMax) &&
      decide (a = BLocalMin ∨ b = BLocalMin)) ∧
    toSad t = (!decide (a = BLocalMin ∧ b = BLocalMax) &&
      decide ((a = BSaddle1 ∧ b = BSaddle2) ∨ (a = BSaddle2 ∧ b = BSaddle1))) := by
  simp only [isPair, Bool.and_eq_true, decide_eq_true_eq] at h
  obtain ⟨hpos, h1, h3⟩ := h
  simp [toMax, toMin, toSad, hpos, h1, h3]

/-- The entries of class (`a`, `b`) of the three sub-diagrams of one input. -/
theorem filter_isPair (a b : CriticalType) (raw : List (diagramTuple dataType float)) :
    (raw.filter toMax).filter (isPair a b) = raw.filter (fun t => isPair a b t &&
      (decide (a = BLocalMin ∧ b = BLocalMax) || decide (a = BLocalMax ∨ b = BLocalMax))) ∧
    (raw.filter toMin).filter (isPair a b) = raw.filter (fun t => isPair a b t &&
      (!decide (a = BLocalMin ∧ b = BLocalMax) && decide (a = BLocalMin ∨ b = BLocalMin))) ∧
    (raw.filter toSad).filter (isPair a b) = raw.filter (fun t => isPair a b t &&
      (!decide (a = BLocalMin ∧ b = BLocalMax) &&
        decide ((a = BSaddle1 ∧ b = BSaddle2) ∨ (a = BSaddle2 ∧ b = BSaddle1)))) :=
  ⟨filter_filter_of_agree toMax (isPair a b) _ raw (fun t ht => (tests_on_pair a b t ht).1),
    filter_filter_of_agree toMin (isPair a b) _ raw (fun t ht => (tests_on_pair a b t ht).2.1),
    filter_filter_of_agree toSad (isPair a b) _ raw
      (fun t ht => (tests_on_pair a b t ht).2.2)⟩

/-- C13: let `a` and `b` be among LocalMin, Saddle1, Saddle2, LocalMax. There is a
number `n` of copies, 0 exactly when (`a`, `b`) is (Saddle1, Saddle1) or
(Saddle2, Saddle2), 2 exactly when it is (LocalMax, LocalMin), 1 in every other case and
never 3, such that the partitioning loop of `execute` returns (input count not negative,
every input there) and, for every input `i`: each of the three sub-diagrams of `i`
holds either all the pairs of positive persistence and types (`a`, `b`) of raw diagram
`i`, once each and in order, or none of them; the three together hold `n` times as many
as the raw diagram; with `n = 2` they are in "max" and "min" and not in "sad"; and if
"sad" holds one, "min" and "max" hold none. -/
theorem C13_number_of_copies (numberOfInputs_ : Int)
    (intermediateDiagrams : List (List (diagramTuple dataType float)))
    (h0 : 0 ≤ numberOfInputs_)
    (hlen : numberOfInputs_.toNat ≤ intermediateDiagrams.length)
    (a b : CriticalType)
    (ha : a = BLocalMin ∨ a = BSaddle1 ∨ a = BSaddle2 ∨ a = BLocalMax)
    (hb : b = BLocalMin ∨ b = BSaddle1 ∨ b = BSaddle2 ∨ b = BLocalMax) :
    ∃ n : Nat,
      (n = 0 ↔ (a = BSaddle1 ∧ b = BSaddle1) ∨ (a = BSaddle2 ∧ b = BSaddle2)) ∧
      (n = 2 ↔ (a = BLocalMax ∧ b = BLocalMin)) ∧
      (¬ ((a = BSaddle1 ∧ b = BSaddle1) ∨ (a = BSaddle2 ∧ b = BSaddle2)) →
        ¬ (a = BLocalMax ∧ b = BLocalMin) → n = 1) ∧
      n ≠ 3 ∧
      ∃ p, partitionDiagrams numberOfInputs_ intermediateDiagrams = some p ∧
        ∀ i : Nat, i < numberOfInputs_.toNat →
          ∃ raw dmin dsad dmax,
            intermediateDiagrams[i]? = some raw ∧
            p.data_min[i]? = some dmin ∧ p.data_sad[i]? = some dsad ∧
            p.data_max[i]? = some dmax ∧
            (dmin.filter (isPair a b) = raw.filter (isPair a b) ∨
              dmin.filter (isPair a b) = []) ∧
            (dsad.filter (isPair a b) = raw.filter (isPair a b) ∨
              dsad.filter (isPair a b) = []) ∧
            (dmax.filter (isPair a b) = raw.filter (isPair a b) ∨
              dmax.filter (isPair a b) = []) ∧
            (dmin.filter (isPair a b)).length + (dsad.filter (isPair a b)).length +
                (dmax.filter (isPair a b)).length
              = n * (raw.filter (isPair a b)).length ∧
            (n = 2 → dmax.filter (isPair a b) = raw.filter (isPair a b) ∧
              dmin.filter (isPair a b) = raw.filter (isPair a b) ∧
              dsad.filter (isPair a b) = []) ∧
            (dsad.filter (isPair a b) ≠ [] →
              dmin.filter (isPair a b) = [] ∧ dmax.filter (isPair a b) = []) := by
  obtain ⟨p, hp, hall⟩ := partitionDiagrams_entries numberOfInputs_ intermediateDiagrams h0 hlen
  refine ⟨(if (!decide (a = BLocalMin ∧ b = BLocalMax) &&
      decide (a = BLocalMin ∨ b = BLocalMin)) = true then 1 else 0) +
    (if (!decide (a = BLocalMin ∧ b = BLocalMax) &&
      decide ((a = BSaddle1 ∧ b = BSaddle2) ∨ (a = BSaddle2 ∧ b = BSaddle1))) = true
      then 1 else 0) +
    (if (decide (a = BLocalMin ∧ b = BLocalMax) ||
      decide (a = BLocalMax ∨ b = BLocalMax)) = true then 1 else 0), ?_, ?_, ?_, ?_,
    p, hp, ?_⟩
  · rcases ha with ha | ha | ha | ha <;> rcases hb with hb | hb | hb | hb <;>
      subst ha <;> subst hb <;> decide
  · rcases ha with ha | ha | ha | ha <;> rcases hb with hb | hb | hb | hb <;>
      subst ha <;> subst hb <;> decide
  · rcases ha with ha | ha | ha | ha <;> rcases hb with hb | hb | hb | hb <;>
      subst ha <;> subst hb <;> decide
  · rcases ha with ha | ha | ha | ha <;> rcases hb with hb | hb | hb | hb <;>
      subst ha <;> subst hb <;> decide
  · intro i hi
    obtain ⟨raw, hraw, e1, e2, e3⟩ := hall i hi
    obtain ⟨f3, f1, f2⟩ := filter_isPair a b raw
    refine ⟨raw, _, _, _, hraw, e1, e2, e3, ?_⟩
    rw [f1, f2, f3]
    rcases ha with ha | ha | ha | ha <;> rcases hb with hb | hb | hb | hb <;>
      subst ha <;> subst hb <;>
      (simp [filter_and_true, filter_and_false]; try exact (Nat.two_mul _).symm)

/-- C13 at a concrete input: one diagram with two (LocalMax, LocalMin) pairs, one
(Saddle1, Saddle1) pair and one (LocalMin, LocalMax) pair; the two reversed pairs are
both in "max" and in "min", the saddle pair is nowhere, the global pair in "max"
only. -/
theorem C13_number_of_copies_witness :
    (∃ n : Nat,
      (n = 0 ↔ (BLocalMax = BSaddle1 ∧ BLocalMin = BSaddle1) ∨
        (BLocalMax = BSaddle2 ∧ BLocalMin = BSaddle2)) ∧
      (n = 2 ↔ (BLocalMax = BLocalMax ∧ BLocalMin = BLocalMin)) ∧
      (¬ ((BLocalMax = BSaddle1 ∧ BLocalMin = BSaddle1) ∨
          (BLocalMax = BSaddle2 ∧ BLocalMin = BSaddle2)) →
        ¬ (BLocalMax = BLocalMax ∧ BLocalMin = BLocalMin) → n = 1) ∧
      n ≠ 3 ∧
      ∃ p, partitionDiagrams 1
          [[mkPair BLocalMax BLocalMin 5, mkPair BSaddle1 BSaddle1 4,
            mkPair BLocalMax BLocalMin 3, mkPair BLocalMin BLocalMax 2]] = some p ∧
        ∀ i : Nat, i < (1 : Int).toNat →
          ∃ raw dmin dsad dmax,
            [[mkPair BLocalMax BLocalMin 5, mkPair BSaddle1 BSaddle1 4,
              mkPair BLocalMax BLocalMin 3, mkPair BLocalMin BLocalMax 2]][i]? = some raw ∧
            p.data_min[i]? = some dmin ∧ p.data_sad[i]? = some dsad ∧
            p.data_max[i]? = some dmax ∧
            (dmin.filter (isPair BLocalMax BLocalMin) = raw.filter (isPair BLocalMax BLocalMin) ∨
              dmin.filter (isPair BLocalMax BLocalMin) = []) ∧
            (dsad.filter (isPair BLocalMax BLocalMin) = raw.filter (isPair BLocalMax BLocalMin) ∨
              dsad.filter (isPair BLocalMax BLocalMin) = []) ∧
            (dmax.filter (isPair BLocalMax BLocalMin) = raw.filter (isPair BLocalMax BLocalMin) ∨
              dmax.filter (isPair BLocalMax BLocalMin) = []) ∧
            (dmin.filter (isPair BLocalMax BLocalMin)).length +
                (dsad.filter (isPair BLocalMax BLocalMin)).length +
                (dmax.filter (isPair BLocalMax BLocalMin)).length
              = n * (raw.filter (isPair BLocalMax BLocalMin)).length ∧
            (n = 2 →
              dmax.filter (isPair BLocalMax BLocalMin) = raw.filter (isPair BLocalMax BLocalMin) ∧
              dmin.filter (isPair BLocalMax BLocalMin) = raw.filter (isPair BLocalMax BLocalMin) ∧
              dsad.filter (isPair BLocalMax BLocalMin) = []) ∧
            (dsad.filter (isPair BLocalMax BLocalMin) ≠ [] →
              dmin.filter (isPair BLocalMax BLocalMin) = [] ∧
              dmax.filter (isPair BLocalMax BLocalMin) = [])) ∧
    (partitionDiagrams 1
        [[mkPair BLocalMax BLocalMin 5, mkPair BSaddle1 BSaddle1 4,
          mkPair BLocalMax BLocalMin 3, mkPair BLocalMin BLocalMax 2]]).map
        (fun p => (p.data_min, p.data_sad, p.data_max))
      = some ([[mkPair BLocalMax BLocalMin 5, mkPair BLocalMax BLocalMin 3]], [[]],
          [[mkPair BLocalMax BLocalMin 5, mkPair BLocalMax BLocalMin 3,
            mkPair BLocalMin BLocalMax 2]]) :=
  ⟨C13_number_of_copies 1
    [[mkPair BLocalMax BLocalMin 5, mkPair BSaddle1 BSaddle1 4,
      mkPair BLocalMax BLocalMin 3, mkPair BLocalMin BLocalMax 2]]
    (by decide) (by decide) BLocalMax BLocalMin (by decide) (by decide), by decide⟩

end classes

end ttk
